import Mathlib

/-!
Verification of the derived-metrics and adaptive-schema engine of the
`memcachedstats` Munin plugin (`src/pymunin/plugins/memcachedstats.py`).

The embedding models Python dictionaries as association lists whose values
are `Option Int` (Python's `None` is `Option.none`; the services' counters
are integers).  Fallible Python operations (`stats[k]` indexing, `-` on a
possibly-`None` value) live in `Except String`.  The observable behaviour of
`MuninMemcachedPlugin.retrieveVals` is captured as a trace of events: the
`saveState` hand-off and every `setGraphVal` call, in program order.
Graph values are rationals (`ℚ`): the only non-integer values are the
hit-percentage fields, `round(100.0 * hits / total, 2)`, modelled exactly
over `ℚ` with round-half-to-even.
-/

set_option autoImplicit false
set_option linter.unnecessarySeqFocus false
set_option linter.unusedVariables false

namespace Memcached

/-- A Python value stored in a stats dict: an integer or `None`. -/
abbrev PyVal := Option Int

/-- A Python dict from counter names to values, as an association list. -/
abbrev PyDict := List (String × PyVal)

/-- A raw snapshot as delivered by the service: counter name to integer. -/
abbrev Stats := List (String × Int)

/-- Key lookup in an association list (first match wins, like a dict). -/
def lookupKV {α : Type} : List (String × α) → String → Option α
  | [], _ => none
  | (k, v) :: d, k2 => if k2 = k then some v else lookupKV d k2

/-- Python `k in d` membership test. -/
def dictMem (d : PyDict) (k : String) : Bool :=
  (lookupKV d k).isSome

/-- Python `d.get(k)`: `None` both when the key is missing and when the
stored value is `None`. -/
def pyGet (d : PyDict) (k : String) : PyVal :=
  (lookupKV d k).join

/-- Python `d[k]`: raises `KeyError` when the key is missing. -/
def dictIndex (d : PyDict) (k : String) : Except String PyVal :=
  match lookupKV d k with
  | some v => .ok v
  | none => .error "KeyError"

/-- Python `d[k] = v`: replace the binding if the key exists, else append. -/
def dictSet (d : PyDict) (k : String) (v : PyVal) : PyDict :=
  if dictMem d k then
    d.map (fun p => if p.1 = k then (k, v) else p)
  else
    d ++ [(k, v)]

/-- Python `a - b` on stats values: `TypeError` unless both are integers. -/
def pySub : PyVal → PyVal → Except String Int
  | some a, some b => .ok (a - b)
  | _, _ => .error "TypeError"

/-- Embed a service snapshot (all-integer values) as a Python dict. -/
def toDict (s : Stats) : PyDict :=
  s.map (fun p => (p.1, some p.2))

/-- Python truthiness of a dict: `False` exactly when empty. -/
def pyTruthy (d : PyDict) : Bool :=
  !d.isEmpty

/-- Modelled from the spec: `safe_sum` from `pysysinfo.util` (imported by the
plugin but not under `src/`): the sum of a list of optional numerics,
treating an individually-absent entry as 0, unless every entry is absent, in
which case the result itself is absent. -/
def safe_sum (xs : List PyVal) : PyVal :=
  if xs.all Option.isNone then none
  else some ((xs.map (fun x => x.getD 0)).sum)

/-- Round-half-to-even of a rational to an integer (Python's `round`). -/
def roundHalfEven (q : ℚ) : ℤ :=
  let n := ⌊q⌋
  if q - n < 1 / 2 then n
  else if (1 : ℚ) / 2 < q - n then n + 1
  else if n % 2 = 0 then n else n + 1

/-- Python `round(x, 2)` over rationals. -/
def round2 (q : ℚ) : ℚ :=
  (roundHalfEven (q * 100) : ℚ) / 100

/-- The value written for a hit-percentage field from the two deltas
(source lines 432-440): `round(100.0 * hits / total, 2)` when
`total = hits + misses > 0`, else `round(0, 2)`. -/
def pctVal (hits misses : ℤ) : ℚ :=
  round2 (if 0 < hits + misses then (100 * hits : ℚ) / ((hits + misses : ℤ) : ℚ) else 0)

/-- The snapshot enrichment performed at the top of `retrieveVals`
(source lines 314-316): `stats['set_hits'] = stats.get('total_items')`, then
`stats['set_misses'] = stats['cmd_set'] - stats['total_items']` when both
keys are present. -/
def enrich (d : PyDict) : Except String PyDict :=
  let d1 := dictSet d "set_hits" (pyGet d "total_items")
  if dictMem d1 "cmd_set" && dictMem d1 "total_items" then
    match dictIndex d1 "cmd_set", dictIndex d1 "total_items" with
    | .ok a, .ok b =>
      match pySub a b with
      | .ok c => .ok (dictSet d1 "set_misses" (some c))
      | .error e => .error e
    | .error e, _ => .error e
    | _, .error e => .error e
  else
    .ok d1

/-- The built schema: the ordered list of appended graphs, each with its
ordered field names. -/
abbrev Schema := List (String × List String)

/-- `self.hasGraph(name)`. -/
def hasGraph (s : Schema) (g : String) : Bool :=
  (lookupKV s g).isSome

/-- `self.graphHasField(graph, field)`. -/
def graphHasField (s : Schema) (g f : String) : Bool :=
  match lookupKV s g with
  | some fs => fs.contains f
  | none => false

/-- The (field, gating counter) pairs of the `memcached_reqrate` loop
(source lines 162-167). -/
def reqrateFieldTable : List (String × String) :=
  [("set", "cmd_set"), ("get", "cmd_get"), ("del", "delete_hits"),
   ("cas", "cas_hits"), ("incr", "incr_hits"), ("decr", "decr_hits")]

/-- The (field, gating counter) pairs of the `memcached_hitpct` schema loop
(source lines 295-299); the `set` field precedes them unconditionally. -/
def hitpctFieldTable : List (String × String) :=
  [("get", "cmd_get"), ("del", "delete_hits"), ("cas", "cas_hits"),
   ("incr", "incr_hits"), ("decr", "decr_hits")]

/-- The schema construction of `MuninMemcachedPlugin.__init__`
(source lines 108-303): each graph is appended iff it is enabled and its
required counters are present in the build-time snapshot; fields follow the
per-graph `addField` calls, including the conditional ones. -/
def buildSchema (enabled : String → Bool) (stats : PyDict) : Schema :=
  (if enabled "memcached_connections" && dictMem stats "curr_connections" then
    [("memcached_connections", ["conn"])] else []) ++
  (if enabled "memcached_items" && dictMem stats "curr_items" then
    [("memcached_items", ["items"])] else []) ++
  (if enabled "memcached_memory" && dictMem stats "bytes" then
    [("memcached_memory", ["bytes"])] else []) ++
  (if enabled "memcached_connrate" && dictMem stats "total_connections" then
    [("memcached_connrate", ["conn"])] else []) ++
  (if enabled "memcached_traffic" && dictMem stats "bytes_read"
      && dictMem stats "bytes_written" then
    [("memcached_traffic", ["rxbytes", "txbytes"])] else []) ++
  (if enabled "memcached_reqrate" && dictMem stats "cmd_set"
      && dictMem stats "cmd_get" then
    [("memcached_reqrate",
      reqrateFieldTable.filterMap
        (fun p => if dictMem stats p.2 then some p.1 else none))] else []) ++
  (if enabled "memcached_statget" && dictMem stats "cmd_get" then
    [("memcached_statget", ["hit", "miss", "total"])] else []) ++
  (if enabled "memcached_statset" && dictMem stats "cmd_set" then
    [("memcached_statset", ["hit", "miss", "total"])] else []) ++
  (if enabled "memcached_statdel" && dictMem stats "delete_hits" then
    [("memcached_statdel", ["hit", "miss", "total"])] else []) ++
  (if enabled "memcached_statcas" && dictMem stats "cas_hits" then
    [("memcached_statcas", ["hit", "miss", "badval", "total"])] else []) ++
  (if enabled "memcached_statincrdecr" && dictMem stats "incr_hits"
      && dictMem stats "decr_hits" then
    [("memcached_statincrdecr",
      ["incr_hit", "decr_hit", "incr_miss", "decr_miss", "total"])] else []) ++
  (if enabled "memcached_statevict" && dictMem stats "evictions" then
    [("memcached_statevict",
      "evict" :: (if dictMem stats "reclaimed" then ["reclaim"] else []))]
   else []) ++
  (if enabled "memcached_statauth" && dictMem stats "auth_cmds" then
    [("memcached_statauth", ["reqs", "errors"])] else []) ++
  (if enabled "memcached_hitpct" && dictMem stats "cmd_set"
      && dictMem stats "cmd_get" then
    [("memcached_hitpct",
      "set" :: hitpctFieldTable.filterMap
        (fun p => if dictMem stats p.2 then some p.1 else none))] else [])

/-- An observable event of one `retrieveVals` run: restoring the previous
snapshot (done in `__init__`), the `saveState` hand-off, or one
`setGraphVal` call (value `none` when the counter was absent). -/
inductive Event where
  | restore (p : Option PyDict)
  | save (d : PyDict)
  | setVal (g f : String) (v : Option ℚ)
deriving DecidableEq

/-- Coerce a stats value to a graph value. -/
def passVal (v : PyVal) : Option ℚ :=
  v.map (fun n => (n : ℚ))

/-- Source lines 318-320. -/
def evConnections (schema : Schema) (stats : PyDict) : List Event :=
  if hasGraph schema "memcached_connections" then
    [.setVal "memcached_connections" "conn" (passVal (pyGet stats "curr_connections"))]
  else []

/-- Source lines 321-323. -/
def evItems (schema : Schema) (stats : PyDict) : List Event :=
  if hasGraph schema "memcached_items" then
    [.setVal "memcached_items" "items" (passVal (pyGet stats "curr_items"))]
  else []

/-- Source lines 324-326. -/
def evMemory (schema : Schema) (stats : PyDict) : List Event :=
  if hasGraph schema "memcached_memory" then
    [.setVal "memcached_memory" "bytes" (passVal (pyGet stats "bytes"))]
  else []

/-- Source lines 327-329. -/
def evConnrate (schema : Schema) (stats : PyDict) : List Event :=
  if hasGraph schema "memcached_connrate" then
    [.setVal "memcached_connrate" "conn" (passVal (pyGet stats "total_connections"))]
  else []

/-- Source lines 330-334. -/
def evTraffic (schema : Schema) (stats : PyDict) : List Event :=
  if hasGraph schema "memcached_traffic" then
    [.setVal "memcached_traffic" "rxbytes" (passVal (pyGet stats "bytes_read")),
     .setVal "memcached_traffic" "txbytes" (passVal (pyGet stats "bytes_written"))]
  else []

/-- Source lines 335-356: `set` and `get` pass through; `del`, `cas`,
`incr`, `decr` are `safe_sum`s guarded by `graphHasField`. -/
def evReqrate (schema : Schema) (stats : PyDict) : List Event :=
  if hasGraph schema "memcached_reqrate" then
    [.setVal "memcached_reqrate" "set" (passVal (pyGet stats "cmd_set")),
     .setVal "memcached_reqrate" "get" (passVal (pyGet stats "cmd_get"))] ++
    (if graphHasField schema "memcached_reqrate" "del" then
      [.setVal "memcached_reqrate" "del"
        (passVal (safe_sum [pyGet stats "delete_hits", pyGet stats "delete_misses"]))]
     else []) ++
    (if graphHasField schema "memcached_reqrate" "cas" then
      [.setVal "memcached_reqrate" "cas"
        (passVal (safe_sum [pyGet stats "cas_hits", pyGet stats "cas_misses",
                            pyGet stats "cas_badval"]))]
     else []) ++
    (if graphHasField schema "memcached_reqrate" "incr" then
      [.setVal "memcached_reqrate" "incr"
        (passVal (safe_sum [pyGet stats "incr_hits", pyGet stats "incr_misses"]))]
     else []) ++
    (if graphHasField schema "memcached_reqrate" "decr" then
      [.setVal "memcached_reqrate" "decr"
        (passVal (safe_sum [pyGet stats "decr_hits", pyGet stats "decr_misses"]))]
     else [])
  else []

/-- Source lines 357-364. -/
def evStatget (schema : Schema) (stats : PyDict) : List Event :=
  if hasGraph schema "memcached_statget" then
    [.setVal "memcached_statget" "hit" (passVal (pyGet stats "get_hits")),
     .setVal "memcached_statget" "miss" (passVal (pyGet stats "get_misses")),
     .setVal "memcached_statget" "total"
       (passVal (safe_sum [pyGet stats "get_hits", pyGet stats "get_misses"]))]
  else []

/-- Source lines 365-372. -/
def evStatset (schema : Schema) (stats : PyDict) : List Event :=
  if hasGraph schema "memcached_statset" then
    [.setVal "memcached_statset" "hit" (passVal (pyGet stats "set_hits")),
     .setVal "memcached_statset" "miss" (passVal (pyGet stats "set_misses")),
     .setVal "memcached_statset" "total"
       (passVal (safe_sum [pyGet stats "set_hits", pyGet stats "set_misses"]))]
  else []

/-- Source lines 373-380. -/
def evStatdel (schema : Schema) (stats : PyDict) : List Event :=
  if hasGraph schema "memcached_statdel" then
    [.setVal "memcached_statdel" "hit" (passVal (pyGet stats "delete_hits")),
     .setVal "memcached_statdel" "miss" (passVal (pyGet stats "delete_misses")),
     .setVal "memcached_statdel" "total"
       (passVal (safe_sum [pyGet stats "delete_hits", pyGet stats "delete_misses"]))]
  else []

/-- Source lines 381-391. -/
def evStatcas (schema : Schema) (stats : PyDict) : List Event :=
  if hasGraph schema "memcached_statcas" then
    [.setVal "memcached_statcas" "hit" (passVal (pyGet stats "cas_hits")),
     .setVal "memcached_statcas" "miss" (passVal (pyGet stats "cas_misses")),
     .setVal "memcached_statcas" "badval" (passVal (pyGet stats "cas_badval")),
     .setVal "memcached_statcas" "total"
       (passVal (safe_sum [pyGet stats "cas_hits", pyGet stats "cas_misses",
                           pyGet stats "cas_badval"]))]
  else []

/-- Source lines 392-405. -/
def evStatincrdecr (schema : Schema) (stats : PyDict) : List Event :=
  if hasGraph schema "memcached_statincrdecr" then
    [.setVal "memcached_statincrdecr" "incr_hit" (passVal (pyGet stats "incr_hits")),
     .setVal "memcached_statincrdecr" "decr_hit" (passVal (pyGet stats "decr_hits")),
     .setVal "memcached_statincrdecr" "incr_miss" (passVal (pyGet stats "incr_misses")),
     .setVal "memcached_statincrdecr" "decr_miss" (passVal (pyGet stats "decr_misses")),
     .setVal "memcached_statincrdecr" "total"
       (passVal (safe_sum [pyGet stats "incr_hits", pyGet stats "decr_hits",
                           pyGet stats "incr_misses", pyGet stats "decr_misses"]))]
  else []

/-- Source lines 406-411. -/
def evStatevict (schema : Schema) (stats : PyDict) : List Event :=
  if hasGraph schema "memcached_statevict" then
    [.setVal "memcached_statevict" "evict" (passVal (pyGet stats "evictions"))] ++
    (if graphHasField schema "memcached_statevict" "reclaim" then
      [.setVal "memcached_statevict" "reclaim" (passVal (pyGet stats "reclaimed"))]
     else [])
  else []

/-- Source lines 412-416. -/
def evStatauth (schema : Schema) (stats : PyDict) : List Event :=
  if hasGraph schema "memcached_statauth" then
    [.setVal "memcached_statauth" "reqs" (passVal (pyGet stats "auth_cmds")),
     .setVal "memcached_statauth" "errors" (passVal (pyGet stats "auth_errors"))]
  else []

/-- All `setGraphVal` events of source lines 318-416, in program order. -/
def mainEvents (schema : Schema) (stats : PyDict) : List Event :=
  evConnections schema stats ++ evItems schema stats ++ evMemory schema stats ++
  evConnrate schema stats ++ evTraffic schema stats ++ evReqrate schema stats ++
  evStatget schema stats ++ evStatset schema stats ++ evStatdel schema stats ++
  evStatcas schema stats ++ evStatincrdecr schema stats ++
  evStatevict schema stats ++ evStatauth schema stats

/-- The (field, hit-counter, miss-counter) table of the hit-percentage loop
(source lines 419-426). -/
def hitpctTable : List (String × String × String) :=
  [("set", "set_hits", "set_misses"), ("get", "get_hits", "get_misses"),
   ("del", "delete_hits", "delete_misses"), ("cas", "cas_hits", "cas_misses"),
   ("incr", "incr_hits", "incr_misses"), ("decr", "decr_hits", "decr_misses")]

/-- One iteration of the hit-percentage loop (source lines 427-440): when
all four counters are present in both snapshots, the deltas are subtracted
(raising `TypeError` on a `None` value) and the rounded percentage is set. -/
def hitpctOne (stats prev : PyDict) : String × String × String → Except String (List Event)
  | (f, h, m) =>
    if dictMem stats h && dictMem prev h && dictMem stats m && dictMem prev m then
      match dictIndex stats h, dictIndex prev h, dictIndex stats m, dictIndex prev m with
      | .ok ch, .ok ph, .ok cm, .ok pm =>
        match pySub ch ph, pySub cm pm with
        | .ok hits, .ok misses =>
          .ok [.setVal "memcached_hitpct" f (some (pctVal hits misses))]
        | .error e, _ => .error e
        | _, .error e => .error e
      | .error e, _, _, _ => .error e
      | _, .error e, _, _ => .error e
      | _, _, .error e, _ => .error e
      | _, _, _, .error e => .error e
    else
      .ok []

/-- The hit-percentage block (source lines 417-440): skipped entirely when
the graph is absent or the previous snapshot is absent or falsy. -/
def hitpctEvents (schema : Schema) (stats : PyDict) (prev : Option PyDict) :
    Except String (List Event) :=
  if hasGraph schema "memcached_hitpct" then
    match prev with
    | none => pure []
    | some p =>
      if pyTruthy p then (hitpctTable.mapM (hitpctOne stats p)).map List.flatten
      else pure []
  else
    pure []

/-- The event trace of `MuninMemcachedPlugin.retrieveVals` (source lines
305-440): enrich the current snapshot, hand it to `saveState`, then set
every graph value in program order. -/
def retrieveVals (schema : Schema) (stats0 : PyDict) (prev : Option PyDict) :
    Except String (List Event) :=
  match enrich stats0 with
  | .error e => .error e
  | .ok stats =>
    match hitpctEvents schema stats prev with
    | .error e => .error e
    | .ok hp => .ok (Event.save stats :: (mainEvents schema stats ++ hp))

/-- All `setGraphVal` payloads for a (graph, field) pair, in trace order. -/
def setsOf (evs : List Event) (g f : String) : List (Option ℚ) :=
  evs.filterMap (fun e =>
    match e with
    | .setVal g2 f2 v => if g2 = g ∧ f2 = f then some v else none
    | _ => none)

/-- The value reported for a (graph, field) pair: the last `setGraphVal`
payload, `none` (absent) when the field was never set or was set to `None`. -/
def reported (evs : List Event) (g f : String) : Option ℚ :=
  (setsOf evs g f).getLastD none

/-- The mutable plugin state of one process: the schema built by `__init__`,
the snapshot cached when no previous state existed, and the restored
previous snapshot. -/
structure PState where
  schema : Schema
  statsCache : Option PyDict
  prev : Option PyDict
deriving DecidableEq

/-- `MuninMemcachedPlugin.__init__` (source lines 96-106 and 108-303):
restore the previous snapshot; on the first cycle fetch and cache a fresh
one; build the schema from whichever snapshot was obtained. -/
def initState (enabled : String → Bool) (stored : Option PyDict)
    (fresh : PyDict) : PState :=
  { schema := buildSchema enabled (stored.getD fresh)
    statsCache := if stored.isSome then none else some fresh
    prev := stored }

/-- The content of the stats dict after the in-place mutation of source
lines 314-316 has run on it: the enriched dict when both assignments
complete, and the dict with only `set_hits` assigned (line 314) when the
subtraction of line 316 raises. -/
def enrichResult (d : PyDict) : PyDict :=
  match enrich d with
  | .ok d2 => d2
  | .error _ => dictSet d "set_hits" (pyGet d "total_items")

/-- One `retrieveVals` invocation as a state transition: the current
snapshot is the cached one if any, else a fresh fetch. `retrieveVals`
assigns no instance field, but when `self._stats` is cached (line 311
aliases it), the enrichment of lines 314-316 mutates that cached dict in
place, so the cache component becomes the mutated dict; the schema and the
restored previous snapshot are untouched. -/
def cycleStep (st : PState) (fresh : PyDict) :
    Except String (List Event) × PState :=
  (retrieveVals st.schema (st.statsCache.getD fresh) st.prev,
   { st with statsCache := st.statsCache.map enrichResult })

/-- Iterated cycles of one process. -/
def runCycles (st : PState) : List PyDict → PState
  | [] => st
  | f :: fs => runCycles (cycleStep st f).2 fs

/-- The full trace of one plugin invocation: `__init__` (restoring the
previous snapshot and building the schema) followed by `retrieveVals`. -/
def invocation (enabled : String → Bool) (stored : Option PyDict)
    (fresh : PyDict) : Except String (List Event) :=
  let st := initState enabled stored fresh
  match cycleStep st fresh with
  | (.error e, _) => .error e
  | (.ok evs, _) => .ok (Event.restore stored :: evs)

/-- Well-formedness of a service snapshot: the derived counter name
`set_misses` does not occur without `total_items` (a real service never
reports `set_misses` at all; it is this plugin's own derived name). -/
def WfStats (s : Stats) : Prop :=
  dictMem (toDict s) "set_misses" = true → dictMem (toDict s) "total_items" = true

instance (s : Stats) : Decidable (WfStats s) := by
  unfold WfStats; infer_instance

/-- The catalog of graph-level required counters (spec section 6), matching
the membership tests of `__init__`. -/
def catalogRequires : List (String × List String) :=
  [("memcached_connections", ["curr_connections"]),
   ("memcached_items", ["curr_items"]),
   ("memcached_memory", ["bytes"]),
   ("memcached_connrate", ["total_connections"]),
   ("memcached_traffic", ["bytes_read", "bytes_written"]),
   ("memcached_reqrate", ["cmd_set", "cmd_get"]),
   ("memcached_statget", ["cmd_get"]),
   ("memcached_statset", ["cmd_set"]),
   ("memcached_statdel", ["delete_hits"]),
   ("memcached_statcas", ["cas_hits"]),
   ("memcached_statincrdecr", ["incr_hits", "decr_hits"]),
   ("memcached_statevict", ["evictions"]),
   ("memcached_statauth", ["auth_cmds"]),
   ("memcached_hitpct", ["cmd_set", "cmd_get"])]

/-- Each hit-percentage field's matched hit-counter (the hit member of the
pair the value derivation subtracts, source lines 419-426). -/
def hitpctHitCounters : List (String × String) :=
  [("set", "set_hits"), ("get", "get_hits"), ("del", "delete_hits"),
   ("cas", "cas_hits"), ("incr", "incr_hits"), ("decr", "decr_hits")]

/-- The combined-sum fields: graph, field, and the fixed list of sub-counter
names summed by `safe_sum` (source lines 340-356 and 362-405). -/
def combinedFieldTable : List (String × String × List String) :=
  [("memcached_reqrate", "del", ["delete_hits", "delete_misses"]),
   ("memcached_reqrate", "cas", ["cas_hits", "cas_misses", "cas_badval"]),
   ("memcached_reqrate", "incr", ["incr_hits", "incr_misses"]),
   ("memcached_reqrate", "decr", ["decr_hits", "decr_misses"]),
   ("memcached_statget", "total", ["get_hits", "get_misses"]),
   ("memcached_statset", "total", ["set_hits", "set_misses"]),
   ("memcached_statdel", "total", ["delete_hits", "delete_misses"]),
   ("memcached_statcas", "total", ["cas_hits", "cas_misses", "cas_badval"]),
   ("memcached_statincrdecr", "total",
     ["incr_hits", "decr_hits", "incr_misses", "decr_misses"])]

/-- The ordering claimed by the spec for the snapshot hand-off: every
`saveState` event comes after every `setGraphVal` event of the cycle. -/
def handoffAfterFields (evs : List Event) : Prop :=
  ∀ i j d g f v, evs.get? i = some (Event.save d) →
    evs.get? j = some (Event.setVal g f v) → j < i

/-! ### Lookup and update lemmas -/

@[simp] theorem lookupKV_nil {α : Type} (k : String) :
    lookupKV ([] : List (String × α)) k = none := rfl

@[simp] theorem lookupKV_cons {α : Type} (a : String) (v : α)
    (d : List (String × α)) (k : String) :
    lookupKV ((a, v) :: d) k = if k = a then some v else lookupKV d k := rfl

theorem lookupKV_append {α : Type} (l₁ l₂ : List (String × α)) (k : String) :
    lookupKV (l₁ ++ l₂) k =
      match lookupKV l₁ k with
      | some v => some v
      | none => lookupKV l₂ k := by
  induction l₁ with
  | nil => simp
  | cons p t ih =>
    obtain ⟨a, v⟩ := p
    by_cases h : k = a <;> simp [h, ih]

theorem lookupKV_toDict (s : Stats) (k : String) :
    lookupKV (toDict s) k = (lookupKV s k).map some := by
  induction s with
  | nil => simp [toDict]
  | cons p t ih =>
    obtain ⟨a, v⟩ := p
    by_cases h : k = a
    · simp [toDict, h]
    · simpa [toDict, h] using ih

theorem pyGet_toDict (s : Stats) (k : String) :
    pyGet (toDict s) k = lookupKV s k := by
  rw [pyGet, lookupKV_toDict]
  cases lookupKV s k <;> rfl

theorem dictMem_toDict (s : Stats) (k : String) :
    dictMem (toDict s) k = (lookupKV s k).isSome := by
  rw [dictMem, lookupKV_toDict]
  cases lookupKV s k <;> rfl

theorem lookupKV_map_update_self (t : PyDict) (k : String) (v : PyVal)
    (hm : (lookupKV t k).isSome) :
    lookupKV (t.map (fun p => if p.1 = k then (k, v) else p)) k = some v := by
  induction t with
  | nil => simp at hm
  | cons p t ih =>
    obtain ⟨a, b⟩ := p
    by_cases ha : a = k
    · subst ha
      simp
    · have h2 : ¬ k = a := fun hh => ha hh.symm
      simp only [lookupKV_cons, h2, if_false] at hm
      simpa [ha, h2] using ih hm

theorem lookupKV_map_update_ne (t : PyDict) (k : String) (v : PyVal)
    (k2 : String) (h : k2 ≠ k) :
    lookupKV (t.map (fun p => if p.1 = k then (k, v) else p)) k2 = lookupKV t k2 := by
  induction t with
  | nil => simp
  | cons p t ih =>
    obtain ⟨a, b⟩ := p
    by_cases ha : a = k
    · subst ha
      simp [h, ih]
    · simp [ha, ih]

theorem dictSet_lookup_self (d : PyDict) (k : String) (v : PyVal) :
    lookupKV (dictSet d k v) k = some v := by
  rw [dictSet]
  split
  · rename_i hm
    rw [dictMem] at hm
    exact lookupKV_map_update_self d k v (by simp [hm])
  · rename_i hm
    rw [dictMem] at hm
    have hn : lookupKV d k = none := by
      cases h2 : lookupKV d k
      · rfl
      · rw [h2] at hm
        simp at hm
    rw [lookupKV_append, hn]
    simp

theorem dictSet_lookup_ne (d : PyDict) (k : String) (v : PyVal) (k2 : String)
    (h : k2 ≠ k) : lookupKV (dictSet d k v) k2 = lookupKV d k2 := by
  rw [dictSet]
  split
  · exact lookupKV_map_update_ne d k v k2 h
  · rw [lookupKV_append]
    cases hh : lookupKV d k2 with
    | some v2 => simp
    | none => simp [h]

theorem dictMem_dictSet (d : PyDict) (k : String) (v : PyVal) (k2 : String) :
    dictMem (dictSet d k v) k2 = if k2 = k then true else dictMem d k2 := by
  by_cases h : k2 = k
  · subst h
    simp [dictMem, dictSet_lookup_self]
  · simp [h, dictMem, dictSet_lookup_ne d k v k2 h]

/-! ### Trace query lemmas -/

@[simp] theorem setsOf_nil (g f : String) : setsOf [] g f = [] := rfl

@[simp] theorem setsOf_cons_save (d : PyDict) (l : List Event) (g f : String) :
    setsOf (Event.save d :: l) g f = setsOf l g f := rfl

@[simp] theorem setsOf_cons_restore (p : Option PyDict) (l : List Event) (g f : String) :
    setsOf (Event.restore p :: l) g f = setsOf l g f := rfl

@[simp] theorem setsOf_cons_setVal (g2 f2 : String) (v : Option ℚ)
    (l : List Event) (g f : String) :
    setsOf (Event.setVal g2 f2 v :: l) g f =
      if g2 = g ∧ f2 = f then v :: setsOf l g f else setsOf l g f := by
  simp only [setsOf, List.filterMap_cons]
  by_cases h : g2 = g ∧ f2 = f <;> simp [h]

@[simp] theorem setsOf_append (l₁ l₂ : List Event) (g f : String) :
    setsOf (l₁ ++ l₂) g f = setsOf l₁ g f ++ setsOf l₂ g f := by
  simp [setsOf]

theorem setsOf_ite (c : Prop) [Decidable c] (l₁ l₂ : List Event) (g f : String) :
    setsOf (if c then l₁ else l₂) g f =
      if c then setsOf l₁ g f else setsOf l₂ g f := by
  split <;> rfl

theorem setsOf_flatten (ls : List (List Event)) (g f : String) :
    setsOf ls.flatten g f = (ls.map (fun l => setsOf l g f)).flatten := by
  induction ls with
  | nil => rfl
  | cons a t ih => simp [ih]

theorem reported_of_setsOf_single (evs : List Event) (g f : String) (v : Option ℚ)
    (h : setsOf evs g f = [v]) : reported evs g f = v := by
  rw [reported, h]
  rfl

theorem reported_of_setsOf_nil (evs : List Event) (g f : String)
    (h : setsOf evs g f = []) : reported evs g f = none := by
  rw [reported, h]
  rfl

/-! ### Enrichment lemmas -/

theorem enrich_toDict (s : Stats) :
    ∃ d, enrich (toDict s) = .ok d ∧
      (∀ k, k ≠ "set_hits" → k ≠ "set_misses" →
        lookupKV d k = lookupKV (toDict s) k) ∧
      lookupKV d "set_hits" = some (lookupKV s "total_items") ∧
      (∀ a b, lookupKV s "cmd_set" = some a → lookupKV s "total_items" = some b →
        lookupKV d "set_misses" = some (some (a - b))) ∧
      ((lookupKV s "cmd_set" = none ∨ lookupKV s "total_items" = none) →
        lookupKV d "set_misses" = lookupKV (toDict s) "set_misses") := by
  have hne1 : ("cmd_set" : String) ≠ "set_hits" := by decide
  have hne2 : ("total_items" : String) ≠ "set_hits" := by decide
  have hne3 : ("set_misses" : String) ≠ "set_hits" := by decide
  have hne4 : ("set_hits" : String) ≠ "set_misses" := by decide
  have hget : pyGet (toDict s) "total_items" = lookupKV s "total_items" :=
    pyGet_toDict s "total_items"
  rcases hcs : lookupKV s "cmd_set" with _ | a
  · -- cmd_set absent: the guard is false, only set_hits is assigned
    refine ⟨dictSet (toDict s) "set_hits" (pyGet (toDict s) "total_items"), ?_, ?_, ?_, ?_, ?_⟩
    · rw [enrich]
      have hm : dictMem (dictSet (toDict s) "set_hits" (pyGet (toDict s) "total_items"))
          "cmd_set" = false := by
        rw [dictMem, dictSet_lookup_ne _ _ _ _ hne1, lookupKV_toDict, hcs]
        rfl
      simp [hm]
    · intro k hk _
      exact dictSet_lookup_ne _ _ _ _ hk
    · rw [dictSet_lookup_self, hget]
    · intro a b ha
      cases ha
    · intro _
      exact dictSet_lookup_ne _ _ _ _ hne3
  · rcases hti : lookupKV s "total_items" with _ | b
    · -- total_items absent: the guard is false
      refine ⟨dictSet (toDict s) "set_hits" (pyGet (toDict s) "total_items"),
        ?_, ?_, ?_, ?_, ?_⟩
      · rw [enrich]
        have hm : dictMem (dictSet (toDict s) "set_hits" (pyGet (toDict s) "total_items"))
            "total_items" = false := by
          rw [dictMem, dictSet_lookup_ne _ _ _ _ hne2, lookupKV_toDict, hti]
          rfl
        simp [hm]
      · intro k hk _
        exact dictSet_lookup_ne _ _ _ _ hk
      · rw [dictSet_lookup_self, hget, hti]
      · intro a b _ hb
        cases hb
      · intro _
        exact dictSet_lookup_ne _ _ _ _ hne3
    · -- both present: set_misses is materialized
      refine ⟨dictSet (dictSet (toDict s) "set_hits" (pyGet (toDict s) "total_items"))
        "set_misses" (some (a - b)), ?_, ?_, ?_, ?_, ?_⟩
      · rw [enrich]
        have hm1 : dictMem (dictSet (toDict s) "set_hits" (pyGet (toDict s) "total_items"))
            "cmd_set" = true := by
          rw [dictMem, dictSet_lookup_ne _ _ _ _ hne1, lookupKV_toDict, hcs]
          rfl
        have hm2 : dictMem (dictSet (toDict s) "set_hits" (pyGet (toDict s) "total_items"))
            "total_items" = true := by
          rw [dictMem, dictSet_lookup_ne _ _ _ _ hne2, lookupKV_toDict, hti]
          rfl
        have hl1 : dictIndex (dictSet (toDict s) "set_hits" (pyGet (toDict s) "total_items"))
            "cmd_set" = .ok (some a) := by
          rw [dictIndex, dictSet_lookup_ne _ _ _ _ hne1, lookupKV_toDict, hcs]
          rfl
        have hl2 : dictIndex (dictSet (toDict s) "set_hits" (pyGet (toDict s) "total_items"))
            "total_items" = .ok (some b) := by
          rw [dictIndex, dictSet_lookup_ne _ _ _ _ hne2, lookupKV_toDict, hti]
          rfl
        rw [hm1, hm2]
        simp only [Bool.and_self, if_true, hl1, hl2, pySub]
      · intro k hk1 hk2
        rw [dictSet_lookup_ne _ _ _ _ hk2, dictSet_lookup_ne _ _ _ _ hk1]
      · rw [dictSet_lookup_ne _ _ _ _ hne4, dictSet_lookup_self, hget, hti]
      · intro a2 b2 ha2 hb2
        cases ha2
        cases hb2
        rw [dictSet_lookup_self]
      · intro h
        rcases h with h | h
        · cases h
        · cases h

/-! ### Hit-percentage loop lemmas -/

theorem hitpctOne_value (stats prev : PyDict) (f h m : String)
    (ch ph cm pm : Int)
    (hch : lookupKV stats h = some (some ch)) (hph : lookupKV prev h = some (some ph))
    (hcm : lookupKV stats m = some (some cm)) (hpm : lookupKV prev m = some (some pm)) :
    hitpctOne stats prev (f, h, m) =
      .ok [.setVal "memcached_hitpct" f (some (pctVal (ch - ph) (cm - pm)))] := by
  rw [hitpctOne]
  have g1 : dictMem stats h = true := by rw [dictMem, hch]; rfl
  have g2 : dictMem prev h = true := by rw [dictMem, hph]; rfl
  have g3 : dictMem stats m = true := by rw [dictMem, hcm]; rfl
  have g4 : dictMem prev m = true := by rw [dictMem, hpm]; rfl
  have i1 : dictIndex stats h = .ok (some ch) := by rw [dictIndex, hch]
  have i2 : dictIndex prev h = .ok (some ph) := by rw [dictIndex, hph]
  have i3 : dictIndex stats m = .ok (some cm) := by rw [dictIndex, hcm]
  have i4 : dictIndex prev m = .ok (some pm) := by rw [dictIndex, hpm]
  simp [g1, g2, g3, g4, i1, i2, i3, i4, pySub]

theorem hitpctOne_skip (stats prev : PyDict) (f h m : String)
    (hg : (dictMem stats h && dictMem prev h && dictMem stats m && dictMem prev m) = false) :
    hitpctOne stats prev (f, h, m) = .ok [] := by
  rw [hitpctOne]
  simp [hg]

theorem hitpctOne_total (s : Stats) (d : PyDict) (p : Stats)
    (hwf : WfStats s) (hd : enrich (toDict s) = .ok d)
    (e : String × String × String) (he : e ∈ hitpctTable) :
    ∃ l, hitpctOne d (toDict p) e = .ok l ∧
      (l = [] ∨ ∃ v, l = [.setVal "memcached_hitpct" e.1 v]) := by
  obtain ⟨d2, hd2, hother, hsh, hsm₁, hsm₂⟩ := enrich_toDict s
  rw [hd] at hd2
  cases hd2
  obtain ⟨f, h, m⟩ := e
  by_cases hg : (dictMem d h && dictMem (toDict p) h
      && dictMem d m && dictMem (toDict p) m) = true
  swap
  · exact ⟨[], hitpctOne_skip _ _ _ _ _ (by simpa using hg), Or.inl rfl⟩
  · simp only [Bool.and_eq_true] at hg
    obtain ⟨⟨⟨hg1, hg2⟩, hg3⟩, hg4⟩ := hg
    -- previous-snapshot values are always integers
    obtain ⟨ph, hph⟩ : ∃ v, lookupKV (toDict p) h = some (some v) := by
      rw [dictMem, lookupKV_toDict] at hg2
      rcases hv : lookupKV p h with _ | v
      · rw [hv] at hg2
        simp at hg2
      · exact ⟨v, by rw [lookupKV_toDict, hv]; rfl⟩
    obtain ⟨pm, hpm⟩ : ∃ v, lookupKV (toDict p) m = some (some v) := by
      rw [dictMem, lookupKV_toDict] at hg4
      rcases hv : lookupKV p m with _ | v
      · rw [hv] at hg4
        simp at hg4
      · exact ⟨v, by rw [lookupKV_toDict, hv]; rfl⟩
    -- a key untouched by the enrichment holds an integer when present
    have hplain : ∀ k : String, k ≠ "set_hits" → k ≠ "set_misses" →
        dictMem d k = true → ∃ v, lookupKV d k = some (some v) := by
      intro k hk1 hk2 hmem
      rw [dictMem, hother k hk1 hk2, lookupKV_toDict] at hmem
      rcases hv : lookupKV s k with _ | v
      · rw [hv] at hmem
        simp at hmem
      · exact ⟨v, by rw [hother k hk1 hk2, lookupKV_toDict, hv]; rfl⟩
    -- when set_misses is present, well-formedness makes set_hits an integer
    have hset_hits : dictMem d "set_misses" = true →
        ∃ v, lookupKV d "set_hits" = some (some v) := by
      intro hmem
      rcases hti : lookupKV s "total_items" with _ | b
      · exfalso
        have h5 : lookupKV d "set_misses" = lookupKV (toDict s) "set_misses" :=
          hsm₂ (Or.inr hti)
        have h6 : dictMem (toDict s) "set_misses" = true := by
          rw [dictMem, ← h5]
          rw [dictMem] at hmem
          exact hmem
        have h7 := hwf h6
        rw [dictMem_toDict, hti] at h7
        cases h7
      · exact ⟨b, by rw [hsh, hti]⟩
    -- when set_misses is present, its own value is an integer
    have hset_misses : dictMem d "set_misses" = true →
        ∃ v, lookupKV d "set_misses" = some (some v) := by
      intro hmem
      rcases hcs : lookupKV s "cmd_set" with _ | a
      · have h5 : lookupKV d "set_misses" = lookupKV (toDict s) "set_misses" :=
          hsm₂ (Or.inl hcs)
        rw [dictMem, h5, lookupKV_toDict] at hmem
        rcases hv : lookupKV s "set_misses" with _ | v
        · rw [hv] at hmem
          simp at hmem
        · exact ⟨v, by rw [h5, lookupKV_toDict, hv]; rfl⟩
      · rcases hti : lookupKV s "total_items" with _ | b
        · exfalso
          have h5 : lookupKV d "set_misses" = lookupKV (toDict s) "set_misses" :=
            hsm₂ (Or.inr hti)
          have h6 : dictMem (toDict s) "set_misses" = true := by
            rw [dictMem, ← h5]
            rw [dictMem] at hmem
            exact hmem
          have h7 := hwf h6
          rw [dictMem_toDict, hti] at h7
          cases h7
        · exact ⟨a - b, hsm₁ a b hcs hti⟩
    simp only [hitpctTable, List.mem_cons, List.not_mem_nil, or_false,
      Prod.mk.injEq] at he
    rcases he with h9 | h9 | h9 | h9 | h9 | h9 <;> obtain ⟨rfl, rfl, rfl⟩ := h9
    · obtain ⟨ch, hch⟩ := hset_hits hg3
      obtain ⟨cm, hcm⟩ := hset_misses hg3
      exact ⟨_, hitpctOne_value d (toDict p) _ _ _ ch ph cm pm hch hph hcm hpm,
        Or.inr ⟨_, rfl⟩⟩
    all_goals
      obtain ⟨ch, hch⟩ := hplain _ (by decide) (by decide) hg1
      obtain ⟨cm, hcm⟩ := hplain _ (by decide) (by decide) hg3
      exact ⟨_, hitpctOne_value d (toDict p) _ _ _ ch ph cm pm hch hph hcm hpm,
        Or.inr ⟨_, rfl⟩⟩

/-! ### Totality of the hit-percentage block and of the whole compute step -/

theorem forall₂_mem_right {α β : Type} {r : α → β → Prop} {l : List α} {ys : List β}
    (h : List.Forall₂ r l ys) {y : β} (hy : y ∈ ys) : ∃ a ∈ l, r a y := by
  induction h with
  | nil => cases hy
  | cons h1 _ ih =>
    rcases List.mem_cons.mp hy with rfl | hy2
    · exact ⟨_, by simp, h1⟩
    · obtain ⟨a, ha, hr⟩ := ih hy2
      exact ⟨a, by simp [ha], hr⟩

theorem mapM_ok {α β : Type} (g : α → Except String β) (l : List α)
    (h : ∀ a ∈ l, ∃ y, g a = .ok y) :
    ∃ ys, l.mapM g = .ok ys ∧ List.Forall₂ (fun a y => g a = .ok y) l ys := by
  induction l with
  | nil => exact ⟨[], rfl, .nil⟩
  | cons a t ih =>
    obtain ⟨y, hy⟩ := h a (by simp)
    obtain ⟨ys, hys, hall⟩ := ih (fun x hx => h x (by simp [hx]))
    refine ⟨y :: ys, ?_, .cons hy hall⟩
    rw [List.mapM_cons, hy, hys]
    rfl

theorem hitpctEvents_total (schema : Schema) (s : Stats) (d : PyDict) (prevO : Option Stats)
    (hwf : WfStats s) (hd : enrich (toDict s) = .ok d) :
    ∃ l, hitpctEvents schema d (prevO.map toDict) = .ok l ∧
      ∀ e ∈ l, ∃ f v, e = Event.setVal "memcached_hitpct" f v := by
  unfold hitpctEvents
  by_cases hg : hasGraph schema "memcached_hitpct" = true
  swap
  · refine ⟨[], ?_, by simp⟩
    simp [hg, pure, Except.pure]
  rcases prevO with _ | p
  · exact ⟨[], by simp [hg, pure, Except.pure], by simp⟩
  by_cases ht : pyTruthy (toDict p) = true
  swap
  · refine ⟨[], ?_, by simp⟩
    simp [hg, ht, pure, Except.pure]
  obtain ⟨ys, hys, hall⟩ := mapM_ok (hitpctOne d (toDict p)) hitpctTable
    (fun e he => ⟨_, (hitpctOne_total s d p hwf hd e he).choose_spec.1⟩)
  refine ⟨ys.flatten, ?_, ?_⟩
  · simp only [hg, ht, Option.map_some', eq_self_iff_true, if_true]
    rw [hys]
    rfl
  · intro e hme
    rw [List.mem_flatten] at hme
    obtain ⟨l2, hl2, hel2⟩ := hme
    obtain ⟨a, hal, hgl⟩ := forall₂_mem_right hall hl2
    obtain ⟨a1, a2, a3⟩ := a
    rcases (hitpctOne_total s d p hwf hd (a1, a2, a3) hal) with ⟨l3, h3, hshape⟩
    rw [hgl] at h3
    cases h3
    rcases hshape with rfl | ⟨v, rfl⟩
    · cases hel2
    · rcases List.mem_singleton.mp hel2 with rfl
      exact ⟨a1, v, rfl⟩

/-! ### Graph locality of the per-graph blocks -/

theorem setsOf_evConnections_ne (schema : Schema) (stats : PyDict) (g f : String)
    (h : g ≠ "memcached_connections") :
    setsOf (evConnections schema stats) g f = [] := by
  simp [evConnections, setsOf_ite, Ne.symm h]

theorem setsOf_evItems_ne (schema : Schema) (stats : PyDict) (g f : String)
    (h : g ≠ "memcached_items") :
    setsOf (evItems schema stats) g f = [] := by
  simp [evItems, setsOf_ite, Ne.symm h]

theorem setsOf_evMemory_ne (schema : Schema) (stats : PyDict) (g f : String)
    (h : g ≠ "memcached_memory") :
    setsOf (evMemory schema stats) g f = [] := by
  simp [evMemory, setsOf_ite, Ne.symm h]

theorem setsOf_evConnrate_ne (schema : Schema) (stats : PyDict) (g f : String)
    (h : g ≠ "memcached_connrate") :
    setsOf (evConnrate schema stats) g f = [] := by
  simp [evConnrate, setsOf_ite, Ne.symm h]

theorem setsOf_evTraffic_ne (schema : Schema) (stats : PyDict) (g f : String)
    (h : g ≠ "memcached_traffic") :
    setsOf (evTraffic schema stats) g f = [] := by
  simp [evTraffic, setsOf_ite, Ne.symm h]

theorem setsOf_evReqrate_ne (schema : Schema) (stats : PyDict) (g f : String)
    (h : g ≠ "memcached_reqrate") :
    setsOf (evReqrate schema stats) g f = [] := by
  simp [evReqrate, setsOf_ite, Ne.symm h]

theorem setsOf_evStatget_ne (schema : Schema) (stats : PyDict) (g f : String)
    (h : g ≠ "memcached_statget") :
    setsOf (evStatget schema stats) g f = [] := by
  simp [evStatget, setsOf_ite, Ne.symm h]

theorem setsOf_evStatset_ne (schema : Schema) (stats : PyDict) (g f : String)
    (h : g ≠ "memcached_statset") :
    setsOf (evStatset schema stats) g f = [] := by
  simp [evStatset, setsOf_ite, Ne.symm h]

theorem setsOf_evStatdel_ne (schema : Schema) (stats : PyDict) (g f : String)
    (h : g ≠ "memcached_statdel") :
    setsOf (evStatdel schema stats) g f = [] := by
  simp [evStatdel, setsOf_ite, Ne.symm h]

theorem setsOf_evStatcas_ne (schema : Schema) (stats : PyDict) (g f : String)
    (h : g ≠ "memcached_statcas") :
    setsOf (evStatcas schema stats) g f = [] := by
  simp [evStatcas, setsOf_ite, Ne.symm h]

theorem setsOf_evStatincrdecr_ne (schema : Schema) (stats : PyDict) (g f : String)
    (h : g ≠ "memcached_statincrdecr") :
    setsOf (evStatincrdecr schema stats) g f = [] := by
  simp [evStatincrdecr, setsOf_ite, Ne.symm h]

theorem setsOf_evStatevict_ne (schema : Schema) (stats : PyDict) (g f : String)
    (h : g ≠ "memcached_statevict") :
    setsOf (evStatevict schema stats) g f = [] := by
  simp [evStatevict, setsOf_ite, Ne.symm h]

theorem setsOf_evStatauth_ne (schema : Schema) (stats : PyDict) (g f : String)
    (h : g ≠ "memcached_statauth") :
    setsOf (evStatauth schema stats) g f = [] := by
  simp [evStatauth, setsOf_ite, Ne.symm h]

theorem setsOf_mainEvents_hitpct (schema : Schema) (stats : PyDict) (f : String) :
    setsOf (mainEvents schema stats) "memcached_hitpct" f = [] := by
  simp [mainEvents,
    setsOf_evConnections_ne schema stats "memcached_hitpct" f (by decide),
    setsOf_evItems_ne schema stats "memcached_hitpct" f (by decide),
    setsOf_evMemory_ne schema stats "memcached_hitpct" f (by decide),
    setsOf_evConnrate_ne schema stats "memcached_hitpct" f (by decide),
    setsOf_evTraffic_ne schema stats "memcached_hitpct" f (by decide),
    setsOf_evReqrate_ne schema stats "memcached_hitpct" f (by decide),
    setsOf_evStatget_ne schema stats "memcached_hitpct" f (by decide),
    setsOf_evStatset_ne schema stats "memcached_hitpct" f (by decide),
    setsOf_evStatdel_ne schema stats "memcached_hitpct" f (by decide),
    setsOf_evStatcas_ne schema stats "memcached_hitpct" f (by decide),
    setsOf_evStatincrdecr_ne schema stats "memcached_hitpct" f (by decide),
    setsOf_evStatevict_ne schema stats "memcached_hitpct" f (by decide),
    setsOf_evStatauth_ne schema stats "memcached_hitpct" f (by decide)]

theorem setsOf_mainEvents_reqrate (schema : Schema) (stats : PyDict) (f : String) :
    setsOf (mainEvents schema stats) "memcached_reqrate" f =
      setsOf (evReqrate schema stats) "memcached_reqrate" f := by
  simp [mainEvents,
    setsOf_evConnections_ne schema stats "memcached_reqrate" f (by decide),
    setsOf_evItems_ne schema stats "memcached_reqrate" f (by decide),
    setsOf_evMemory_ne schema stats "memcached_reqrate" f (by decide),
    setsOf_evConnrate_ne schema stats "memcached_reqrate" f (by decide),
    setsOf_evTraffic_ne schema stats "memcached_reqrate" f (by decide),
    setsOf_evStatget_ne schema stats "memcached_reqrate" f (by decide),
    setsOf_evStatset_ne schema stats "memcached_reqrate" f (by decide),
    setsOf_evStatdel_ne schema stats "memcached_reqrate" f (by decide),
    setsOf_evStatcas_ne schema stats "memcached_reqrate" f (by decide),
    setsOf_evStatincrdecr_ne schema stats "memcached_reqrate" f (by decide),
    setsOf_evStatevict_ne schema stats "memcached_reqrate" f (by decide),
    setsOf_evStatauth_ne schema stats "memcached_reqrate" f (by decide)]

theorem setsOf_mainEvents_statget (schema : Schema) (stats : PyDict) (f : String) :
    setsOf (mainEvents schema stats) "memcached_statget" f =
      setsOf (evStatget schema stats) "memcached_statget" f := by
  simp [mainEvents,
    setsOf_evConnections_ne schema stats "memcached_statget" f (by decide),
    setsOf_evItems_ne schema stats "memcached_statget" f (by decide),
    setsOf_evMemory_ne schema stats "memcached_statget" f (by decide),
    setsOf_evConnrate_ne schema stats "memcached_statget" f (by decide),
    setsOf_evTraffic_ne schema stats "memcached_statget" f (by decide),
    setsOf_evReqrate_ne schema stats "memcached_statget" f (by decide),
    setsOf_evStatset_ne schema stats "memcached_statget" f (by decide),
    setsOf_evStatdel_ne schema stats "memcached_statget" f (by decide),
    setsOf_evStatcas_ne schema stats "memcached_statget" f (by decide),
    setsOf_evStatincrdecr_ne schema stats "memcached_statget" f (by decide),
    setsOf_evStatevict_ne schema stats "memcached_statget" f (by decide),
    setsOf_evStatauth_ne schema stats "memcached_statget" f (by decide)]

theorem setsOf_mainEvents_statset (schema : Schema) (stats : PyDict) (f : String) :
    setsOf (mainEvents schema stats) "memcached_statset" f =
      setsOf (evStatset schema stats) "memcached_statset" f := by
  simp [mainEvents,
    setsOf_evConnections_ne schema stats "memcached_statset" f (by decide),
    setsOf_evItems_ne schema stats "memcached_statset" f (by decide),
    setsOf_evMemory_ne schema stats "memcached_statset" f (by decide),
    setsOf_evConnrate_ne schema stats "memcached_statset" f (by decide),
    setsOf_evTraffic_ne schema stats "memcached_statset" f (by decide),
    setsOf_evReqrate_ne schema stats "memcached_statset" f (by decide),
    setsOf_evStatget_ne schema stats "memcached_statset" f (by decide),
    setsOf_evStatdel_ne schema stats "memcached_statset" f (by decide),
    setsOf_evStatcas_ne schema stats "memcached_statset" f (by decide),
    setsOf_evStatincrdecr_ne schema stats "memcached_statset" f (by decide),
    setsOf_evStatevict_ne schema stats "memcached_statset" f (by decide),
    setsOf_evStatauth_ne schema stats "memcached_statset" f (by decide)]

theorem setsOf_mainEvents_statdel (schema : Schema) (stats : PyDict) (f : String) :
    setsOf (mainEvents schema stats) "memcached_statdel" f =
      setsOf (evStatdel schema stats) "memcached_statdel" f := by
  simp [mainEvents,
    setsOf_evConnections_ne schema stats "memcached_statdel" f (by decide),
    setsOf_evItems_ne schema stats "memcached_statdel" f (by decide),
    setsOf_evMemory_ne schema stats "memcached_statdel" f (by decide),
    setsOf_evConnrate_ne schema stats "memcached_statdel" f (by decide),
    setsOf_evTraffic_ne schema stats "memcached_statdel" f (by decide),
    setsOf_evReqrate_ne schema stats "memcached_statdel" f (by decide),
    setsOf_evStatget_ne schema stats "memcached_statdel" f (by decide),
    setsOf_evStatset_ne schema stats "memcached_statdel" f (by decide),
    setsOf_evStatcas_ne schema stats "memcached_statdel" f (by decide),
    setsOf_evStatincrdecr_ne schema stats "memcached_statdel" f (by decide),
    setsOf_evStatevict_ne schema stats "memcached_statdel" f (by decide),
    setsOf_evStatauth_ne schema stats "memcached_statdel" f (by decide)]

theorem setsOf_mainEvents_statcas (schema : Schema) (stats : PyDict) (f : String) :
    setsOf (mainEvents schema stats) "memcached_statcas" f =
      setsOf (evStatcas schema stats) "memcached_statcas" f := by
  simp [mainEvents,
    setsOf_evConnections_ne schema stats "memcached_statcas" f (by decide),
    setsOf_evItems_ne schema stats "memcached_statcas" f (by decide),
    setsOf_evMemory_ne schema stats "memcached_statcas" f (by decide),
    setsOf_evConnrate_ne schema stats "memcached_statcas" f (by decide),
    setsOf_evTraffic_ne schema stats "memcached_statcas" f (by decide),
    setsOf_evReqrate_ne schema stats "memcached_statcas" f (by decide),
    setsOf_evStatget_ne schema stats "memcached_statcas" f (by decide),
    setsOf_evStatset_ne schema stats "memcached_statcas" f (by decide),
    setsOf_evStatdel_ne schema stats "memcached_statcas" f (by decide),
    setsOf_evStatincrdecr_ne schema stats "memcached_statcas" f (by decide),
    setsOf_evStatevict_ne schema stats "memcached_statcas" f (by decide),
    setsOf_evStatauth_ne schema stats "memcached_statcas" f (by decide)]

theorem setsOf_mainEvents_statincrdecr (schema : Schema) (stats : PyDict) (f : String) :
    setsOf (mainEvents schema stats) "memcached_statincrdecr" f =
      setsOf (evStatincrdecr schema stats) "memcached_statincrdecr" f := by
  simp [mainEvents,
    setsOf_evConnections_ne schema stats "memcached_statincrdecr" f (by decide),
    setsOf_evItems_ne schema stats "memcached_statincrdecr" f (by decide),
    setsOf_evMemory_ne schema stats "memcached_statincrdecr" f (by decide),
    setsOf_evConnrate_ne schema stats "memcached_statincrdecr" f (by decide),
    setsOf_evTraffic_ne schema stats "memcached_statincrdecr" f (by decide),
    setsOf_evReqrate_ne schema stats "memcached_statincrdecr" f (by decide),
    setsOf_evStatget_ne schema stats "memcached_statincrdecr" f (by decide),
    setsOf_evStatset_ne schema stats "memcached_statincrdecr" f (by decide),
    setsOf_evStatdel_ne schema stats "memcached_statincrdecr" f (by decide),
    setsOf_evStatcas_ne schema stats "memcached_statincrdecr" f (by decide),
    setsOf_evStatevict_ne schema stats "memcached_statincrdecr" f (by decide),
    setsOf_evStatauth_ne schema stats "memcached_statincrdecr" f (by decide)]

theorem setsOf_eq_nil_of_graphs (l : List Event) (g0 : String)
    (hall : ∀ e ∈ l, ∃ f v, e = Event.setVal g0 f v) {g : String}
    (hne : g ≠ g0) (f : String) : setsOf l g f = [] := by
  induction l with
  | nil => rfl
  | cons e t ih =>
    obtain ⟨f2, v, rfl⟩ := hall e (by simp)
    rw [setsOf_cons_setVal]
    have : ¬ (g0 = g ∧ f2 = f) := fun hc => hne hc.1.symm
    rw [if_neg this]
    exact ih (fun e2 he2 => hall e2 (by simp [he2]))

/-! ### Decomposition of `retrieveVals` -/

theorem retrieveVals_eq (schema : Schema) (stats0 : PyDict) (prev : Option PyDict)
    (d : PyDict) (hp : List Event)
    (hd : enrich stats0 = .ok d) (hh : hitpctEvents schema d prev = .ok hp) :
    retrieveVals schema stats0 prev =
      .ok (Event.save d :: (mainEvents schema d ++ hp)) := by
  unfold retrieveVals
  rw [hd]
  dsimp only
  rw [hh]

theorem retrieveVals_inv (schema : Schema) (stats0 : PyDict) (prev : Option PyDict)
    (evs : List Event) (h : retrieveVals schema stats0 prev = .ok evs) :
    ∃ d hp, enrich stats0 = .ok d ∧ hitpctEvents schema d prev = .ok hp ∧
      evs = Event.save d :: (mainEvents schema d ++ hp) := by
  unfold retrieveVals at h
  rcases hd : enrich stats0 with e | d
  · rw [hd] at h
    cases h
  · rw [hd] at h
    dsimp only at h
    rcases hh : hitpctEvents schema d prev with e | hp
    · rw [hh] at h
      cases h
    · rw [hh] at h
      dsimp only at h
      cases h
      exact ⟨d, hp, rfl, hh, rfl⟩

theorem retrieveVals_total (schema : Schema) (s : Stats) (prevO : Option Stats)
    (hwf : WfStats s) :
    ∃ evs, retrieveVals schema (toDict s) (prevO.map toDict) = .ok evs := by
  obtain ⟨d, hd, -⟩ := enrich_toDict s
  obtain ⟨hp, hh, -⟩ := hitpctEvents_total schema s d prevO hwf hd
  exact ⟨_, retrieveVals_eq schema (toDict s) (prevO.map toDict) d hp hd hh⟩

theorem lookupKV_isSome_truthy (d : PyDict) (k : String) (v : PyVal)
    (h : lookupKV d k = some v) : pyTruthy d = true := by
  cases d with
  | nil => cases h
  | cons a t => rfl

/-- Evaluate the six-entry hit-percentage loop given each iteration's result. -/
theorem hitpctEvents_eq (schema : Schema) (d p : PyDict)
    (hg : hasGraph schema "memcached_hitpct" = true) (ht : pyTruthy p = true)
    (l1 l2 l3 l4 l5 l6 : List Event)
    (h1 : hitpctOne d p ("set", "set_hits", "set_misses") = .ok l1)
    (h2 : hitpctOne d p ("get", "get_hits", "get_misses") = .ok l2)
    (h3 : hitpctOne d p ("del", "delete_hits", "delete_misses") = .ok l3)
    (h4 : hitpctOne d p ("cas", "cas_hits", "cas_misses") = .ok l4)
    (h5 : hitpctOne d p ("incr", "incr_hits", "incr_misses") = .ok l5)
    (h6 : hitpctOne d p ("decr", "decr_hits", "decr_misses") = .ok l6) :
    hitpctEvents schema d (some p) =
      .ok (l1 ++ (l2 ++ (l3 ++ (l4 ++ (l5 ++ (l6 ++ [])))))) := by
  unfold hitpctEvents
  simp only [hg, ht, eq_self_iff_true, if_true, hitpctTable]
  rw [List.mapM_cons, h1, List.mapM_cons, h2, List.mapM_cons, h3,
    List.mapM_cons, h4, List.mapM_cons, h5, List.mapM_cons, h6]
  rfl

/-- The hit-percentage block with no previous snapshot emits nothing. -/
theorem hitpctEvents_none (schema : Schema) (d : PyDict) :
    hitpctEvents schema d none = .ok [] := by
  unfold hitpctEvents
  split <;> rfl

theorem hitpctOne_ok_shape (stats prev : PyDict) (e : String × String × String)
    (l : List Event) (h : hitpctOne stats prev e = .ok l) :
    l = [] ∨ ∃ v, l = [Event.setVal "memcached_hitpct" e.1 v] := by
  obtain ⟨f, hk, m⟩ := e
  unfold hitpctOne at h
  dsimp only at h
  by_cases hg : (dictMem stats hk && dictMem prev hk
      && dictMem stats m && dictMem prev m) = true
  swap
  · rw [if_neg hg] at h
    cases h
    exact Or.inl rfl
  rw [if_pos hg] at h
  rcases e1 : dictIndex stats hk with s1 | ch <;>
    rcases e2 : dictIndex prev hk with s2 | ph <;>
    rcases e3 : dictIndex stats m with s3 | cm <;>
    rcases e4 : dictIndex prev m with s4 | pm <;>
    rw [e1, e2, e3, e4] at h <;>
    try dsimp only at h
  all_goals try exact Except.noConfusion h
  rcases e5 : pySub ch ph with s5 | hits <;>
    rcases e6 : pySub cm pm with s6 | misses <;>
    rw [e5, e6] at h <;>
    try dsimp only at h
  all_goals try exact Except.noConfusion h
  cases h
  exact Or.inr ⟨_, rfl⟩

theorem mapM_ok_inv {α β : Type} (g : α → Except String β) :
    ∀ (l : List α) (ys : List β), l.mapM g = .ok ys →
      List.Forall₂ (fun a y => g a = .ok y) l ys := by
  intro l
  induction l with
  | nil =>
    intro ys h
    cases h
    exact .nil
  | cons a t ih =>
    intro ys h
    rw [List.mapM_cons] at h
    rcases ha : g a with e | y
    · rw [ha] at h
      cases h
    · rw [ha] at h
      rcases hts : t.mapM g with e | ys2
      · rw [hts] at h
        cases h
      · rw [hts] at h
        cases h
        exact .cons ha (ih ys2 hts)

theorem hitpctEvents_ok_shape (schema : Schema) (stats : PyDict)
    (prev : Option PyDict) (l : List Event)
    (h : hitpctEvents schema stats prev = .ok l) :
    ∀ e ∈ l, ∃ f v, e = Event.setVal "memcached_hitpct" f v := by
  unfold hitpctEvents at h
  split at h
  · split at h
    · cases h
      intro e he
      cases he
    · rename_i p
      split at h
      · rcases hm : hitpctTable.mapM (hitpctOne stats p) with e2 | ys <;>
          rw [hm] at h
        · cases h
        · dsimp only [Except.map] at h
          cases h
          intro e he
          rw [List.mem_flatten] at he
          obtain ⟨l2, hl2, hel2⟩ := he
          obtain ⟨a, _, hga⟩ := forall₂_mem_right (mapM_ok_inv _ _ _ hm) hl2
          rcases hitpctOne_ok_shape stats p a l2 hga with rfl | ⟨v, rfl⟩
          · cases hel2
          · rcases List.mem_singleton.mp hel2 with rfl
            exact ⟨a.1, v, rfl⟩
      · cases h
        intro e he
        cases he
  · cases h
    intro e he
    cases he

theorem setsOf_entry_ne (l : List Event) (fi f : String)
    (hshape : l = [] ∨ ∃ v, l = [Event.setVal "memcached_hitpct" fi v])
    (hne : fi ≠ f) : setsOf l "memcached_hitpct" f = [] := by
  rcases hshape with rfl | ⟨v, rfl⟩
  · rfl
  · rw [setsOf_cons_setVal, if_neg (fun hc => hne hc.2)]
    rfl

theorem mainEvents_shape (schema : Schema) (stats : PyDict) :
    ∀ e ∈ mainEvents schema stats, ∃ g f v, e = Event.setVal g f v := by
  intro e he
  rw [mainEvents] at he
  simp only [List.mem_append] at he
  rcases he with ((((((((((((he | he) | he) | he) | he) | he) | he) | he) | he) | he) | he) | he) | he)
  · rw [evConnections] at he
    split at he
    · fin_cases he <;> exact ⟨_, _, _, rfl⟩
    · cases he
  · rw [evItems] at he
    split at he
    · fin_cases he <;> exact ⟨_, _, _, rfl⟩
    · cases he
  · rw [evMemory] at he
    split at he
    · fin_cases he <;> exact ⟨_, _, _, rfl⟩
    · cases he
  · rw [evConnrate] at he
    split at he
    · fin_cases he <;> exact ⟨_, _, _, rfl⟩
    · cases he
  · rw [evTraffic] at he
    split at he
    · fin_cases he <;> exact ⟨_, _, _, rfl⟩
    · cases he
  · rw [evReqrate] at he
    split at he
    · simp only [List.mem_append] at he
      rcases he with ((((he | he) | he) | he) | he)
      · fin_cases he <;> exact ⟨_, _, _, rfl⟩
      · split at he
        · fin_cases he <;> exact ⟨_, _, _, rfl⟩
        · cases he
      · split at he
        · fin_cases he <;> exact ⟨_, _, _, rfl⟩
        · cases he
      · split at he
        · fin_cases he <;> exact ⟨_, _, _, rfl⟩
        · cases he
      · split at he
        · fin_cases he <;> exact ⟨_, _, _, rfl⟩
        · cases he
    · cases he
  · rw [evStatget] at he
    split at he
    · fin_cases he <;> exact ⟨_, _, _, rfl⟩
    · cases he
  · rw [evStatset] at he
    split at he
    · fin_cases he <;> exact ⟨_, _, _, rfl⟩
    · cases he
  · rw [evStatdel] at he
    split at he
    · fin_cases he <;> exact ⟨_, _, _, rfl⟩
    · cases he
  · rw [evStatcas] at he
    split at he
    · fin_cases he <;> exact ⟨_, _, _, rfl⟩
    · cases he
  · rw [evStatincrdecr] at he
    split at he
    · fin_cases he <;> exact ⟨_, _, _, rfl⟩
    · cases he
  · rw [evStatevict] at he
    split at he
    · simp only [List.mem_append] at he
      rcases he with he | he
      · fin_cases he <;> exact ⟨_, _, _, rfl⟩
      · split at he
        · fin_cases he <;> exact ⟨_, _, _, rfl⟩
        · cases he
    · cases he
  · rw [evStatauth] at he
    split at he
    · fin_cases he <;> exact ⟨_, _, _, rfl⟩
    · cases he

theorem round2_zero : round2 0 = 0 := by
  norm_num [round2, roundHalfEven]

theorem safe_sum_none_iff (xs : List PyVal) :
    safe_sum xs = none ↔ ∀ x ∈ xs, x = none := by
  by_cases h : xs.all Option.isNone
  · simp only [safe_sum, h, if_true, true_iff]
    intro x hx
    rw [List.all_eq_true] at h
    simpa [Option.isNone_iff_eq_none] using h x hx
  · simp only [safe_sum, h, if_false]
    constructor
    · intro hc
      cases hc
    · intro hall
      exfalso
      apply h
      rw [List.all_eq_true]
      intro x hx
      simpa [Option.isNone_iff_eq_none] using hall x hx

theorem safe_sum_some (xs : List PyVal) (h : ¬ ∀ x ∈ xs, x = none) :
    safe_sum xs = some ((xs.map (fun x => x.getD 0)).sum) := by
  rw [safe_sum, if_neg]
  intro hc
  apply h
  intro x hx
  rw [List.all_eq_true] at hc
  simpa [Option.isNone_iff_eq_none] using hc x hx

/-- From a single combined-sum `setGraphVal`, conclude both halves of the
combined-sum contract. -/
theorem combined_conclusion (evs : List Event) (g f : String)
    (keys : List String) (d : PyDict)
    (hs : setsOf evs g f = [passVal (safe_sum (keys.map (fun k => pyGet d k)))]) :
    ((∀ k ∈ keys, pyGet d k = none) → reported evs g f = none) ∧
    ((∃ k ∈ keys, pyGet d k ≠ none) →
      reported evs g f =
        some (((keys.map (fun k => (pyGet d k).getD 0)).sum : ℤ) : ℚ)) := by
  have hr := reported_of_setsOf_single evs g f _ hs
  constructor
  · intro hall
    rw [hr]
    have hz : safe_sum (keys.map (fun k => pyGet d k)) = none := by
      rw [safe_sum_none_iff]
      intro x hx
      obtain ⟨k, hk, rfl⟩ := List.mem_map.mp hx
      exact hall k hk
    rw [hz]
    rfl
  · rintro ⟨k0, hk0, hne⟩
    rw [hr]
    have hnall : ¬ ∀ x ∈ keys.map (fun k => pyGet d k), x = none := by
      intro hc
      exact hne (hc _ (List.mem_map_of_mem _ hk0))
    rw [safe_sum_some _ hnall]
    simp [passVal, List.map_map]
    rfl

/-- The value set for one hit-percentage field through a full
`retrieveVals` run, for any table entry whose four counters are present. -/
theorem reported_hitpct_main (schema : Schema) (cur prevS : Stats) (ecur : PyDict)
    (f h m : String) (hmem : (f, h, m) ∈ hitpctTable)
    (hg : hasGraph schema "memcached_hitpct" = true)
    (hwf : WfStats cur) (hd : enrich (toDict cur) = .ok ecur)
    (ch ph cm pm : ℤ)
    (hch : lookupKV ecur h = some (some ch))
    (hph : lookupKV (toDict prevS) h = some (some ph))
    (hcm : lookupKV ecur m = some (some cm))
    (hpm : lookupKV (toDict prevS) m = some (some pm)) :
    ∃ evs, retrieveVals schema (toDict cur) (some (toDict prevS)) = .ok evs ∧
      reported evs "memcached_hitpct" f = some (pctVal (ch - ph) (cm - pm)) := by
  have ht : pyTruthy (toDict prevS) = true := lookupKV_isSome_truthy _ _ _ hph
  simp only [hitpctTable, List.mem_cons, List.not_mem_nil, or_false,
    Prod.mk.injEq] at hmem
  rcases hmem with h9 | h9 | h9 | h9 | h9 | h9 <;> obtain ⟨rfl, rfl, rfl⟩ := h9
  · have h1 := hitpctOne_value ecur (toDict prevS) "set" "set_hits" "set_misses"
      ch ph cm pm hch hph hcm hpm
    obtain ⟨l2, h2, s2⟩ := hitpctOne_total cur ecur prevS hwf hd
      ("get", "get_hits", "get_misses") (by simp [hitpctTable])
    obtain ⟨l3, h3, s3⟩ := hitpctOne_total cur ecur prevS hwf hd
      ("del", "delete_hits", "delete_misses") (by simp [hitpctTable])
    obtain ⟨l4, h4, s4⟩ := hitpctOne_total cur ecur prevS hwf hd
      ("cas", "cas_hits", "cas_misses") (by simp [hitpctTable])
    obtain ⟨l5, h5, s5⟩ := hitpctOne_total cur ecur prevS hwf hd
      ("incr", "incr_hits", "incr_misses") (by simp [hitpctTable])
    obtain ⟨l6, h6, s6⟩ := hitpctOne_total cur ecur prevS hwf hd
      ("decr", "decr_hits", "decr_misses") (by simp [hitpctTable])
    have hh := hitpctEvents_eq schema ecur (toDict prevS) hg ht _ _ _ _ _ _
      h1 h2 h3 h4 h5 h6
    refine ⟨_, retrieveVals_eq _ _ _ _ _ hd hh, ?_⟩
    apply reported_of_setsOf_single
    simp [setsOf_append, setsOf_mainEvents_hitpct,
      setsOf_entry_ne l2 "get" "set" s2 (by decide),
      setsOf_entry_ne l3 "del" "set" s3 (by decide),
      setsOf_entry_ne l4 "cas" "set" s4 (by decide),
      setsOf_entry_ne l5 "incr" "set" s5 (by decide),
      setsOf_entry_ne l6 "decr" "set" s6 (by decide)]
  · obtain ⟨l1, h1, s1⟩ := hitpctOne_total cur ecur prevS hwf hd
      ("set", "set_hits", "set_misses") (by simp [hitpctTable])
    have h2 := hitpctOne_value ecur (toDict prevS) "get" "get_hits" "get_misses"
      ch ph cm pm hch hph hcm hpm
    obtain ⟨l3, h3, s3⟩ := hitpctOne_total cur ecur prevS hwf hd
      ("del", "delete_hits", "delete_misses") (by simp [hitpctTable])
    obtain ⟨l4, h4, s4⟩ := hitpctOne_total cur ecur prevS hwf hd
      ("cas", "cas_hits", "cas_misses") (by simp [hitpctTable])
    obtain ⟨l5, h5, s5⟩ := hitpctOne_total cur ecur prevS hwf hd
      ("incr", "incr_hits", "incr_misses") (by simp [hitpctTable])
    obtain ⟨l6, h6, s6⟩ := hitpctOne_total cur ecur prevS hwf hd
      ("decr", "decr_hits", "decr_misses") (by simp [hitpctTable])
    have hh := hitpctEvents_eq schema ecur (toDict prevS) hg ht _ _ _ _ _ _
      h1 h2 h3 h4 h5 h6
    refine ⟨_, retrieveVals_eq _ _ _ _ _ hd hh, ?_⟩
    apply reported_of_setsOf_single
    simp [setsOf_append, setsOf_mainEvents_hitpct,
      setsOf_entry_ne l1 "set" "get" s1 (by decide),
      setsOf_entry_ne l3 "del" "get" s3 (by decide),
      setsOf_entry_ne l4 "cas" "get" s4 (by decide),
      setsOf_entry_ne l5 "incr" "get" s5 (by decide),
      setsOf_entry_ne l6 "decr" "get" s6 (by decide)]
  · obtain ⟨l1, h1, s1⟩ := hitpctOne_total cur ecur prevS hwf hd
      ("set", "set_hits", "set_misses") (by simp [hitpctTable])
    obtain ⟨l2, h2, s2⟩ := hitpctOne_total cur ecur prevS hwf hd
      ("get", "get_hits", "get_misses") (by simp [hitpctTable])
    have h3 := hitpctOne_value ecur (toDict prevS) "del" "delete_hits" "delete_misses"
      ch ph cm pm hch hph hcm hpm
    obtain ⟨l4, h4, s4⟩ := hitpctOne_total cur ecur prevS hwf hd
      ("cas", "cas_hits", "cas_misses") (by simp [hitpctTable])
    obtain ⟨l5, h5, s5⟩ := hitpctOne_total cur ecur prevS hwf hd
      ("incr", "incr_hits", "incr_misses") (by simp [hitpctTable])
    obtain ⟨l6, h6, s6⟩ := hitpctOne_total cur ecur prevS hwf hd
      ("decr", "decr_hits", "decr_misses") (by simp [hitpctTable])
    have hh := hitpctEvents_eq schema ecur (toDict prevS) hg ht _ _ _ _ _ _
      h1 h2 h3 h4 h5 h6
    refine ⟨_, retrieveVals_eq _ _ _ _ _ hd hh, ?_⟩
    apply reported_of_setsOf_single
    simp [setsOf_append, setsOf_mainEvents_hitpct,
      setsOf_entry_ne l1 "set" "del" s1 (by decide),
      setsOf_entry_ne l2 "get" "del" s2 (by decide),
      setsOf_entry_ne l4 "cas" "del" s4 (by decide),
      setsOf_entry_ne l5 "incr" "del" s5 (by decide),
      setsOf_entry_ne l6 "decr" "del" s6 (by decide)]
  · obtain ⟨l1, h1, s1⟩ := hitpctOne_total cur ecur prevS hwf hd
      ("set", "set_hits", "set_misses") (by simp [hitpctTable])
    obtain ⟨l2, h2, s2⟩ := hitpctOne_total cur ecur prevS hwf hd
      ("get", "get_hits", "get_misses") (by simp [hitpctTable])
    obtain ⟨l3, h3, s3⟩ := hitpctOne_total cur ecur prevS hwf hd
      ("del", "delete_hits", "delete_misses") (by simp [hitpctTable])
    have h4 := hitpctOne_value ecur (toDict prevS) "cas" "cas_hits" "cas_misses"
      ch ph cm pm hch hph hcm hpm
    obtain ⟨l5, h5, s5⟩ := hitpctOne_total cur ecur prevS hwf hd
      ("incr", "incr_hits", "incr_misses") (by simp [hitpctTable])
    obtain ⟨l6, h6, s6⟩ := hitpctOne_total cur ecur prevS hwf hd
      ("decr", "decr_hits", "decr_misses") (by simp [hitpctTable])
    have hh := hitpctEvents_eq schema ecur (toDict prevS) hg ht _ _ _ _ _ _
      h1 h2 h3 h4 h5 h6
    refine ⟨_, retrieveVals_eq _ _ _ _ _ hd hh, ?_⟩
    apply reported_of_setsOf_single
    simp [setsOf_append, setsOf_mainEvents_hitpct,
      setsOf_entry_ne l1 "set" "cas" s1 (by decide),
      setsOf_entry_ne l2 "get" "cas" s2 (by decide),
      setsOf_entry_ne l3 "del" "cas" s3 (by decide),
      setsOf_entry_ne l5 "incr" "cas" s5 (by decide),
      setsOf_entry_ne l6 "decr" "cas" s6 (by decide)]
  · obtain ⟨l1, h1, s1⟩ := hitpctOne_total cur ecur prevS hwf hd
      ("set", "set_hits", "set_misses") (by simp [hitpctTable])
    obtain ⟨l2, h2, s2⟩ := hitpctOne_total cur ecur prevS hwf hd
      ("get", "get_hits", "get_misses") (by simp [hitpctTable])
    obtain ⟨l3, h3, s3⟩ := hitpctOne_total cur ecur prevS hwf hd
      ("del", "delete_hits", "delete_misses") (by simp [hitpctTable])
    obtain ⟨l4, h4, s4⟩ := hitpctOne_total cur ecur prevS hwf hd
      ("cas", "cas_hits", "cas_misses") (by simp [hitpctTable])
    have h5 := hitpctOne_value ecur (toDict prevS) "incr" "incr_hits" "incr_misses"
      ch ph cm pm hch hph hcm hpm
    obtain ⟨l6, h6, s6⟩ := hitpctOne_total cur ecur prevS hwf hd
      ("decr", "decr_hits", "decr_misses") (by simp [hitpctTable])
    have hh := hitpctEvents_eq schema ecur (toDict prevS) hg ht _ _ _ _ _ _
      h1 h2 h3 h4 h5 h6
    refine ⟨_, retrieveVals_eq _ _ _ _ _ hd hh, ?_⟩
    apply reported_of_setsOf_single
    simp [setsOf_append, setsOf_mainEvents_hitpct,
      setsOf_entry_ne l1 "set" "incr" s1 (by decide),
      setsOf_entry_ne l2 "get" "incr" s2 (by decide),
      setsOf_entry_ne l3 "del" "incr" s3 (by decide),
      setsOf_entry_ne l4 "cas" "incr" s4 (by decide),
      setsOf_entry_ne l6 "decr" "incr" s6 (by decide)]
  · obtain ⟨l1, h1, s1⟩ := hitpctOne_total cur ecur prevS hwf hd
      ("set", "set_hits", "set_misses") (by simp [hitpctTable])
    obtain ⟨l2, h2, s2⟩ := hitpctOne_total cur ecur prevS hwf hd
      ("get", "get_hits", "get_misses") (by simp [hitpctTable])
    obtain ⟨l3, h3, s3⟩ := hitpctOne_total cur ecur prevS hwf hd
      ("del", "delete_hits", "delete_misses") (by simp [hitpctTable])
    obtain ⟨l4, h4, s4⟩ := hitpctOne_total cur ecur prevS hwf hd
      ("cas", "cas_hits", "cas_misses") (by simp [hitpctTable])
    obtain ⟨l5, h5, s5⟩ := hitpctOne_total cur ecur prevS hwf hd
      ("incr", "incr_hits", "incr_misses") (by simp [hitpctTable])
    have h6 := hitpctOne_value ecur (toDict prevS) "decr" "decr_hits" "decr_misses"
      ch ph cm pm hch hph hcm hpm
    have hh := hitpctEvents_eq schema ecur (toDict prevS) hg ht _ _ _ _ _ _
      h1 h2 h3 h4 h5 h6
    refine ⟨_, retrieveVals_eq _ _ _ _ _ hd hh, ?_⟩
    apply reported_of_setsOf_single
    simp [setsOf_append, setsOf_mainEvents_hitpct,
      setsOf_entry_ne l1 "set" "decr" s1 (by decide),
      setsOf_entry_ne l2 "get" "decr" s2 (by decide),
      setsOf_entry_ne l3 "del" "decr" s3 (by decide),
      setsOf_entry_ne l4 "cas" "decr" s4 (by decide),
      setsOf_entry_ne l5 "incr" "decr" s5 (by decide)]

/-! ### Schema construction lemmas -/

theorem hasGraph_append (l₁ l₂ : Schema) (g : String) :
    hasGraph (l₁ ++ l₂) g = (hasGraph l₁ g || hasGraph l₂ g) := by
  rw [hasGraph, hasGraph, hasGraph, lookupKV_append]
  cases lookupKV l₁ g <;> simp

theorem lookupKV_ite_single {α : Type} (c : Prop) [Decidable c] (n : String)
    (fs : α) (g : String) :
    lookupKV (if c then [(n, fs)] else []) g =
      if c ∧ g = n then some fs else none := by
  split
  · rename_i hc
    by_cases hg : g = n <;> simp [hg, hc]
  · rename_i hc
    simp [hc]

theorem hasGraph_ite_single (c : Prop) [Decidable c] (n : String)
    (fs : List String) (g : String) :
    hasGraph (if c then [(n, fs)] else []) g = true ↔ (c ∧ g = n) := by
  rw [hasGraph, lookupKV_ite_single]
  by_cases hcg : c ∧ g = n <;> simp [hcg]

/-- Graph-level schema inclusion: a catalog graph is in the built schema iff
it is enabled and all its required counters are present. -/
theorem buildSchema_inclusion (gname : String) (req : List String)
    (hmem : (gname, req) ∈ catalogRequires) (enabled : String → Bool)
    (stats : PyDict) :
    hasGraph (buildSchema enabled stats) gname = true ↔
      (enabled gname = true ∧ ∀ k ∈ req, dictMem stats k = true) := by
  simp only [catalogRequires, List.mem_cons, List.not_mem_nil, or_false,
    Prod.mk.injEq] at hmem
  rcases hmem with h9 | h9 | h9 | h9 | h9 | h9 | h9 | h9 | h9 | h9 | h9 | h9 | h9 | h9 <;>
    obtain ⟨rfl, rfl⟩ := h9 <;>
    (rw [buildSchema]
     simp [hasGraph_append, Bool.or_eq_true, hasGraph_ite_single,
       Bool.and_eq_true, List.forall_mem_cons, and_assoc])

/-- The field list of the hitpct graph in the built schema. -/
theorem buildSchema_lookup_hitpct (enabled : String → Bool) (stats : PyDict) :
    lookupKV (buildSchema enabled stats) "memcached_hitpct" =
      if (enabled "memcached_hitpct" && dictMem stats "cmd_set"
          && dictMem stats "cmd_get") = true then
        some ("set" :: hitpctFieldTable.filterMap
          (fun p => if dictMem stats p.2 then some p.1 else none))
      else none := by
  rw [buildSchema]
  simp [lookupKV_append, lookupKV_ite_single]

/-- Field-level conditions of the hitpct graph as the code has them: `set`
is unconditional, `get` is gated on `cmd_get`, and the remaining four are
gated on their hit-counters. -/
theorem buildSchema_hitpct_fields (enabled : String → Bool) (stats : PyDict)
    (hg : hasGraph (buildSchema enabled stats) "memcached_hitpct" = true) :
    graphHasField (buildSchema enabled stats) "memcached_hitpct" "set" = true ∧
    (graphHasField (buildSchema enabled stats) "memcached_hitpct" "get" = true ↔
      dictMem stats "cmd_get" = true) ∧
    (graphHasField (buildSchema enabled stats) "memcached_hitpct" "del" = true ↔
      dictMem stats "delete_hits" = true) ∧
    (graphHasField (buildSchema enabled stats) "memcached_hitpct" "cas" = true ↔
      dictMem stats "cas_hits" = true) ∧
    (graphHasField (buildSchema enabled stats) "memcached_hitpct" "incr" = true ↔
      dictMem stats "incr_hits" = true) ∧
    (graphHasField (buildSchema enabled stats) "memcached_hitpct" "decr" = true ↔
      dictMem stats "decr_hits" = true) := by
  rw [hasGraph, buildSchema_lookup_hitpct] at hg
  by_cases hcond : (enabled "memcached_hitpct" && dictMem stats "cmd_set"
      && dictMem stats "cmd_get") = true
  swap
  · rw [if_neg hcond] at hg
    cases hg
  have hlook : lookupKV (buildSchema enabled stats) "memcached_hitpct" =
      some ("set" :: hitpctFieldTable.filterMap
        (fun p => if dictMem stats p.2 then some p.1 else none)) := by
    rw [buildSchema_lookup_hitpct, if_pos hcond]
  simp only [graphHasField, hlook]
  by_cases h1 : dictMem stats "cmd_get" = true <;>
  by_cases h2 : dictMem stats "delete_hits" = true <;>
  by_cases h3 : dictMem stats "cas_hits" = true <;>
  by_cases h4 : dictMem stats "incr_hits" = true <;>
  by_cases h5 : dictMem stats "decr_hits" = true <;>
    simp [hitpctFieldTable, h1, h2, h3, h4, h5]

/-! ### Idempotence of the in-place enrichment -/

theorem lookupKV_isSome_of_mem {α : Type} (d : List (String × α)) (p : String × α)
    (hp : p ∈ d) : (lookupKV d p.1).isSome = true := by
  induction d with
  | nil => cases hp
  | cons a t ih =>
    rcases List.mem_cons.mp hp with rfl | hp2
    · obtain ⟨p1, p2⟩ := p
      rw [lookupKV_cons]
      simp
    · obtain ⟨a1, a2⟩ := a
      rw [lookupKV_cons]
      split
      · rfl
      · exact ih hp2

theorem dictSet_all (d : PyDict) (k : String) (v : PyVal) :
    ∀ p ∈ dictSet d k v, p.1 = k → p.2 = v := by
  intro p hp hk
  rw [dictSet] at hp
  split at hp
  · rcases List.mem_map.mp hp with ⟨q, hq, rfl⟩
    by_cases hqk : q.1 = k
    · rw [if_pos hqk]
    · rw [if_neg hqk] at hk
      exact absurd hk hqk
  · rcases List.mem_append.mp hp with hq | hq
    · exfalso
      rename_i hmem
      apply hmem
      rw [dictMem, ← hk]
      exact lookupKV_isSome_of_mem d p hq
    · rcases List.mem_singleton.mp hq with rfl
      rfl

theorem dictSet_all_preserve (d : PyDict) (k2 : String) (v2 : PyVal)
    (k : String) (v : PyVal) (hne : k ≠ k2)
    (hall : ∀ p ∈ d, p.1 = k → p.2 = v) :
    ∀ p ∈ dictSet d k2 v2, p.1 = k → p.2 = v := by
  intro p hp hk
  rw [dictSet] at hp
  split at hp
  · rcases List.mem_map.mp hp with ⟨q, hq, rfl⟩
    by_cases hqk : q.1 = k2
    · rw [if_pos hqk] at hk
      exact absurd hk.symm hne
    · rw [if_neg hqk] at hk ⊢
      exact hall q hq hk
  · rcases List.mem_append.mp hp with hq | hq
    · exact hall p hq hk
    · rcases List.mem_singleton.mp hq with rfl
      exact absurd hk.symm hne

theorem map_update_eq_self (d : PyDict) (k : String) (v : PyVal)
    (hall : ∀ p ∈ d, p.1 = k → p.2 = v) :
    d.map (fun p => if p.1 = k then (k, v) else p) = d := by
  induction d with
  | nil => rfl
  | cons a t ih =>
    obtain ⟨a1, a2⟩ := a
    simp only [List.map_cons]
    rw [ih (fun p hp hk => hall p (by simp [hp]) hk)]
    by_cases ha : a1 = k
    · have h2 : a2 = v := hall (a1, a2) (by simp) ha
      subst ha
      subst h2
      simp
    · simp [ha]

theorem dictSet_eq_self (d : PyDict) (k : String) (v : PyVal)
    (hmem : dictMem d k = true) (hall : ∀ p ∈ d, p.1 = k → p.2 = v) :
    dictSet d k v = d := by
  rw [dictSet, if_pos hmem]
  exact map_update_eq_self d k v hall

theorem dictIndex_ok (d : PyDict) (k : String) (v : PyVal)
    (h : dictIndex d k = .ok v) : lookupKV d k = some v := by
  unfold dictIndex at h
  rcases hl : lookupKV d k with _ | w <;> rw [hl] at h <;> try dsimp only at h
  · cases h
  · cases h
    rfl

/-- Re-running the enrichment on an already-enriched dict changes nothing:
`total_items` is untouched, so `set_hits` is re-assigned its own value, and
`set_misses` is re-assigned the same difference. -/
theorem enrich_idem (d0 d : PyDict) (hd : enrich d0 = .ok d) :
    enrich d = .ok d := by
  have hne_ts : ("total_items" : String) ≠ "set_hits" := by decide
  have hne_tm : ("total_items" : String) ≠ "set_misses" := by decide
  have hne_cm : ("cmd_set" : String) ≠ "set_misses" := by decide
  have hne_hm : ("set_hits" : String) ≠ "set_misses" := by decide
  unfold enrich at hd
  by_cases hg : (dictMem (dictSet d0 "set_hits" (pyGet d0 "total_items")) "cmd_set" &&
      dictMem (dictSet d0 "set_hits" (pyGet d0 "total_items")) "total_items") = true
  swap
  · rw [if_neg hg] at hd
    cases hd
    have hv : pyGet (dictSet d0 "set_hits" (pyGet d0 "total_items")) "total_items" =
        pyGet d0 "total_items" := by
      rw [pyGet, dictSet_lookup_ne _ _ _ _ hne_ts, pyGet]
    have hself : dictSet (dictSet d0 "set_hits" (pyGet d0 "total_items")) "set_hits"
        (pyGet d0 "total_items") = dictSet d0 "set_hits" (pyGet d0 "total_items") :=
      dictSet_eq_self _ _ _ (by rw [dictMem, dictSet_lookup_self]; rfl)
        (dictSet_all d0 _ _)
    unfold enrich
    rw [hv, hself, if_neg hg]
  · rw [if_pos hg] at hd
    rcases e1 : dictIndex (dictSet d0 "set_hits" (pyGet d0 "total_items")) "cmd_set"
        with s1 | a <;>
      rcases e2 : dictIndex (dictSet d0 "set_hits" (pyGet d0 "total_items")) "total_items"
        with s2 | b <;>
      rw [e1, e2] at hd <;>
      try dsimp only at hd
    all_goals try exact Except.noConfusion hd
    rcases e3 : pySub a b with s3 | c <;> rw [e3] at hd <;> try dsimp only at hd
    all_goals try exact Except.noConfusion hd
    cases hd
    have hv : pyGet (dictSet (dictSet d0 "set_hits" (pyGet d0 "total_items"))
        "set_misses" (some c)) "total_items" = pyGet d0 "total_items" := by
      rw [pyGet, dictSet_lookup_ne _ _ _ _ hne_tm,
        dictSet_lookup_ne _ _ _ _ hne_ts, pyGet]
    have hall : ∀ p ∈ dictSet (dictSet d0 "set_hits" (pyGet d0 "total_items"))
        "set_misses" (some c), p.1 = "set_hits" → p.2 = pyGet d0 "total_items" :=
      dictSet_all_preserve _ _ _ _ _ hne_hm (dictSet_all d0 _ _)
    have hmemh : dictMem (dictSet (dictSet d0 "set_hits" (pyGet d0 "total_items"))
        "set_misses" (some c)) "set_hits" = true := by
      rw [dictMem, dictSet_lookup_ne _ _ _ _ hne_hm, dictSet_lookup_self]
      rfl
    have hself : dictSet (dictSet (dictSet d0 "set_hits" (pyGet d0 "total_items"))
        "set_misses" (some c)) "set_hits" (pyGet d0 "total_items") =
        dictSet (dictSet d0 "set_hits" (pyGet d0 "total_items"))
          "set_misses" (some c) :=
      dictSet_eq_self _ _ _ hmemh hall
    have hm1 : dictMem (dictSet (dictSet d0 "set_hits" (pyGet d0 "total_items"))
        "set_misses" (some c)) "cmd_set" = true := by
      rw [dictMem, dictSet_lookup_ne _ _ _ _ hne_cm, dictIndex_ok _ _ _ e1]
      rfl
    have hm2 : dictMem (dictSet (dictSet d0 "set_hits" (pyGet d0 "total_items"))
        "set_misses" (some c)) "total_items" = true := by
      rw [dictMem, dictSet_lookup_ne _ _ _ _ hne_tm, dictIndex_ok _ _ _ e2]
      rfl
    have hi1 : dictIndex (dictSet (dictSet d0 "set_hits" (pyGet d0 "total_items"))
        "set_misses" (some c)) "cmd_set" = .ok a := by
      unfold dictIndex
      rw [dictSet_lookup_ne _ _ _ _ hne_cm, dictIndex_ok _ _ _ e1]
    have hi2 : dictIndex (dictSet (dictSet d0 "set_hits" (pyGet d0 "total_items"))
        "set_misses" (some c)) "total_items" = .ok b := by
      unfold dictIndex
      rw [dictSet_lookup_ne _ _ _ _ hne_tm, dictIndex_ok _ _ _ e2]
    unfold enrich
    rw [hv, hself]
    have hgd : (dictMem (dictSet (dictSet d0 "set_hits" (pyGet d0 "total_items"))
        "set_misses" (some c)) "cmd_set" &&
        dictMem (dictSet (dictSet d0 "set_hits" (pyGet d0 "total_items"))
          "set_misses" (some c)) "total_items") = true := by
      rw [hm1, hm2]
      rfl
    rw [if_pos hgd, hi1, hi2]
    dsimp only
    rw [e3]
    dsimp only
    rw [dictSet_eq_self _ _ _ (by rw [dictMem, dictSet_lookup_self]; rfl)
      (dictSet_all _ _ _)]

/-- When the enrichment raises (line 316), only the `set_hits` assignment of
line 314 has mutated the dict, and a re-run on that partially-mutated dict
raises the same error. -/
theorem enrich_err_idem (c : PyDict) (e : String) (he : enrich c = .error e) :
    enrich (dictSet c "set_hits" (pyGet c "total_items")) = .error e := by
  have hne_ts : ("total_items" : String) ≠ "set_hits" := by decide
  have hv : pyGet (dictSet c "set_hits" (pyGet c "total_items")) "total_items" =
      pyGet c "total_items" := by
    rw [pyGet, dictSet_lookup_ne _ _ _ _ hne_ts, pyGet]
  have hself : dictSet (dictSet c "set_hits" (pyGet c "total_items")) "set_hits"
      (pyGet c "total_items") = dictSet c "set_hits" (pyGet c "total_items") :=
    dictSet_eq_self _ _ _ (by rw [dictMem, dictSet_lookup_self]; rfl)
      (dictSet_all c _ _)
  unfold enrich at he ⊢
  rw [hv, hself]
  exact he

/-! ### Process state lemmas -/

theorem cycleStep_schema (st : PState) (fresh : PyDict) :
    (cycleStep st fresh).2.schema = st.schema := rfl

theorem cycleStep_prev (st : PState) (fresh : PyDict) :
    (cycleStep st fresh).2.prev = st.prev := rfl

theorem runCycles_schema (st : PState) (l : List PyDict) :
    (runCycles st l).schema = st.schema := by
  induction l generalizing st with
  | nil => rfl
  | cons f fs ih => exact (ih ((cycleStep st f).2)).trans (cycleStep_schema st f)

/-! ### Claim theorems -/

/-- C1: Percentage derivation (hitpct fields): when both snapshots contain
the matched hit/miss counters, the field value is
`round(100 * hits / total, 2)` for `total > 0` and `0` for `total = 0`
(with `hits`, `misses` the deltas of current minus previous); when the
previous snapshot is absent (first cycle), every hitpct field is absent. -/
theorem claim_hitpct_percentage (schema : Schema) (cur prevS : Stats)
    (ecur : PyDict) (f h m : String) (ch ph cm pm : ℤ)
    (hmem : (f, h, m) ∈ hitpctTable)
    (hg : hasGraph schema "memcached_hitpct" = true)
    (hwf : WfStats cur)
    (hd : enrich (toDict cur) = .ok ecur)
    (hch : lookupKV ecur h = some (some ch))
    (hph : lookupKV (toDict prevS) h = some (some ph))
    (hcm : lookupKV ecur m = some (some cm))
    (hpm : lookupKV (toDict prevS) m = some (some pm)) :
    (∃ evs, retrieveVals schema (toDict cur) (some (toDict prevS)) = .ok evs ∧
      (0 < (ch - ph) + (cm - pm) →
        reported evs "memcached_hitpct" f =
          some (round2 ((100 * (ch - ph) : ℚ) / (((ch - ph) + (cm - pm) : ℤ) : ℚ)))) ∧
      ((ch - ph) + (cm - pm) = 0 →
        reported evs "memcached_hitpct" f = some 0)) ∧
    (∀ (schema2 : Schema) (cur2 : PyDict) (evs2 : List Event),
      retrieveVals schema2 cur2 none = .ok evs2 →
      ∀ f2 v, reported evs2 "memcached_hitpct" f2 ≠ some v) := by
  constructor
  · obtain ⟨evs, hevs, hrep⟩ := reported_hitpct_main schema cur prevS ecur f h m
      hmem hg hwf hd ch ph cm pm hch hph hcm hpm
    refine ⟨evs, hevs, ?_, ?_⟩
    · intro hpos
      rw [hrep, pctVal, if_pos hpos]
      norm_cast
    · intro hzero
      rw [hrep, pctVal]
      rw [hzero]
      simp [round2_zero]
  · intro schema2 cur2 evs2 hevs2 f2 v
    obtain ⟨d, hp, hd2, hh2, rfl⟩ := retrieveVals_inv _ _ _ _ hevs2
    rw [hitpctEvents_none] at hh2
    cases hh2
    have hnone : reported (Event.save d :: (mainEvents schema2 d ++ []))
        "memcached_hitpct" f2 = none := by
      apply reported_of_setsOf_nil
      simp [setsOf_mainEvents_hitpct]
    rw [hnone]
    intro hcontra
    cases hcontra

/-- C1 witness: the spec example, previous `{get_hits: 10, get_misses: 5}`
and current `{get_hits: 25, get_misses: 10}` gives hitpct.get = 75. -/
theorem claim_hitpct_percentage_witness :
    ∃ evs, retrieveVals [("memcached_hitpct", ["set", "get"])]
        (toDict [("cmd_set", 1), ("cmd_get", 1), ("get_hits", 25), ("get_misses", 10)])
        (some (toDict [("get_hits", 10), ("get_misses", 5)])) = .ok evs ∧
      reported evs "memcached_hitpct" "get" = some 75 := by
  obtain ⟨⟨evs, hevs, hpos, hzero⟩, habs⟩ := claim_hitpct_percentage
    [("memcached_hitpct", ["set", "get"])]
    [("cmd_set", 1), ("cmd_get", 1), ("get_hits", 25), ("get_misses", 10)]
    [("get_hits", 10), ("get_misses", 5)]
    (toDict [("cmd_set", 1), ("cmd_get", 1), ("get_hits", 25), ("get_misses", 10)]
      ++ [("set_hits", none)])
    "get" "get_hits" "get_misses" 25 10 10 5
    (by simp [hitpctTable]) (by decide) (by decide) (by rfl)
    (by rfl) (by rfl) (by rfl) (by rfl)
  refine ⟨evs, hevs, ?_⟩
  rw [hpos (by norm_num)]
  norm_num [round2, roundHalfEven]

/-- C4: Counter-reset tolerance: when the current hit-counter is below the
previous one (a reset), the negative delta flows through the same derivation
`pctVal` with no special-casing, and the result is deterministic: a second
run on the same input pair returns the identical trace. -/
theorem claim_counter_reset (schema : Schema) (cur prevS : Stats)
    (ecur : PyDict) (f h m : String) (ch ph cm pm : ℤ)
    (hmem : (f, h, m) ∈ hitpctTable)
    (hg : hasGraph schema "memcached_hitpct" = true)
    (hwf : WfStats cur)
    (hd : enrich (toDict cur) = .ok ecur)
    (hch : lookupKV ecur h = some (some ch))
    (hph : lookupKV (toDict prevS) h = some (some ph))
    (hcm : lookupKV ecur m = some (some cm))
    (hpm : lookupKV (toDict prevS) m = some (some pm))
    (hreset : ch < ph) :
    ∃ evs, retrieveVals schema (toDict cur) (some (toDict prevS)) = .ok evs ∧
      reported evs "memcached_hitpct" f = some (pctVal (ch - ph) (cm - pm)) ∧
      ∀ evs2, retrieveVals schema (toDict cur) (some (toDict prevS)) = .ok evs2 →
        evs2 = evs := by
  obtain ⟨evs, hevs, hrep⟩ := reported_hitpct_main schema cur prevS ecur f h m
    hmem hg hwf hd ch ph cm pm hch hph hcm hpm
  refine ⟨evs, hevs, hrep, ?_⟩
  intro evs2 h2
  rw [hevs] at h2
  cases h2
  rfl

/-- C4 witness: a reset `get_hits` 10 → 4 with `get_misses` 0 → 8 yields the
negative percentage -300, passed through unmodified. -/
theorem claim_counter_reset_witness :
    (4 : ℤ) < 10 ∧
    ∃ evs, retrieveVals [("memcached_hitpct", ["set", "get"])]
        (toDict [("cmd_set", 1), ("cmd_get", 1), ("get_hits", 4), ("get_misses", 8)])
        (some (toDict [("get_hits", 10), ("get_misses", 0)])) = .ok evs ∧
      reported evs "memcached_hitpct" "get" = some (-300) := by
  refine ⟨by norm_num, ?_⟩
  obtain ⟨evs, hevs, hrep, hdet⟩ := claim_counter_reset
    [("memcached_hitpct", ["set", "get"])]
    [("cmd_set", 1), ("cmd_get", 1), ("get_hits", 4), ("get_misses", 8)]
    [("get_hits", 10), ("get_misses", 0)]
    (toDict [("cmd_set", 1), ("cmd_get", 1), ("get_hits", 4), ("get_misses", 8)]
      ++ [("set_hits", none)])
    "get" "get_hits" "get_misses" 4 10 8 0
    (by simp [hitpctTable]) (by decide) (by decide) (by rfl)
    (by rfl) (by rfl) (by rfl) (by rfl) (by norm_num)
  refine ⟨evs, hevs, ?_⟩
  rw [hrep]
  norm_num [pctVal, round2, roundHalfEven]

/-- C3: Set-misses enrichment: whenever `cmd_set` and `total_items` are both
present, the derived counter `set_misses = cmd_set - total_items` is
materialized into the current snapshot before the field rules read it; on
the spec example `{cmd_set: 100, total_items: 90}` the statset fields are
miss = 10, hit = 90 and total = 100. -/
theorem claim_set_misses_enrichment :
    (∀ (cur : Stats) (a b : ℤ) (ecur : PyDict),
      lookupKV cur "cmd_set" = some a → lookupKV cur "total_items" = some b →
      enrich (toDict cur) = .ok ecur →
      lookupKV ecur "set_misses" = some (some (a - b))) ∧
    (∃ evs, retrieveVals [("memcached_statset", ["hit", "miss", "total"])]
        (toDict [("cmd_set", 100), ("total_items", 90)]) none = .ok evs ∧
      reported evs "memcached_statset" "miss" = some 10 ∧
      reported evs "memcached_statset" "hit" = some 90 ∧
      reported evs "memcached_statset" "total" = some 100) := by
  constructor
  · intro cur a b ecur hcs hti hd
    obtain ⟨d2, hd2, hother, hsh, hsm₁, hsm₂⟩ := enrich_toDict cur
    rw [hd] at hd2
    cases hd2
    exact hsm₁ a b hcs hti
  · have hd : enrich (toDict [("cmd_set", 100), ("total_items", 90)]) = .ok
        [("cmd_set", some 100), ("total_items", some 90), ("set_hits", some 90),
         ("set_misses", some 10)] := by rfl
    have hh := hitpctEvents_none [("memcached_statset", ["hit", "miss", "total"])]
      [("cmd_set", some 100), ("total_items", some 90), ("set_hits", some 90),
       ("set_misses", some 10)]
    have hgs : hasGraph [("memcached_statset", ["hit", "miss", "total"])]
        "memcached_statset" = true := rfl
    refine ⟨_, retrieveVals_eq _ _ _ _ _ hd hh, ?_, ?_, ?_⟩ <;>
      (apply reported_of_setsOf_single
       simp [setsOf_append, setsOf_mainEvents_statset, evStatset, hgs,
         pyGet, lookupKV, passVal, safe_sum]
       try norm_num)

/-- C2: Combined-sum fields: for each combined field of the catalog, when
the field is in the schema, the value is absent iff every sub-counter is
absent, and otherwise equals the sum of the present sub-counters with each
absent sub-counter contributing 0. -/
theorem claim_combined_sum (g f : String) (subs : List String)
    (hmem : (g, f, subs) ∈ combinedFieldTable)
    (schema : Schema) (cur : Stats) (prevO : Option Stats) (ecur : PyDict)
    (hwf : WfStats cur) (hd : enrich (toDict cur) = .ok ecur)
    (hg : hasGraph schema g = true) (hf : graphHasField schema g f = true) :
    ∃ evs, retrieveVals schema (toDict cur) (prevO.map toDict) = .ok evs ∧
      ((∀ k ∈ subs, pyGet ecur k = none) → reported evs g f = none) ∧
      ((∃ k ∈ subs, pyGet ecur k ≠ none) →
        reported evs g f =
          some (((subs.map (fun k => (pyGet ecur k).getD 0)).sum : ℤ) : ℚ)) := by
  obtain ⟨hp, hh, hpall⟩ := hitpctEvents_total schema cur ecur prevO hwf hd
  have hevs := retrieveVals_eq schema (toDict cur) (prevO.map toDict) ecur hp hd hh
  simp only [combinedFieldTable, List.mem_cons, List.not_mem_nil, or_false,
    Prod.mk.injEq] at hmem
  rcases hmem with h9 | h9 | h9 | h9 | h9 | h9 | h9 | h9 | h9 <;>
    obtain ⟨rfl, rfl, rfl⟩ := h9
  · refine ⟨_, hevs, ?_⟩
    apply combined_conclusion
    have hne : ("memcached_reqrate" : String) ≠ "memcached_hitpct" := by decide
    simp [setsOf_append, setsOf_mainEvents_reqrate,
      setsOf_eq_nil_of_graphs hp "memcached_hitpct" hpall hne "del",
      evReqrate, hg, hf, setsOf_ite]
  · refine ⟨_, hevs, ?_⟩
    apply combined_conclusion
    have hne : ("memcached_reqrate" : String) ≠ "memcached_hitpct" := by decide
    simp [setsOf_append, setsOf_mainEvents_reqrate,
      setsOf_eq_nil_of_graphs hp "memcached_hitpct" hpall hne "cas",
      evReqrate, hg, hf, setsOf_ite]
  · refine ⟨_, hevs, ?_⟩
    apply combined_conclusion
    have hne : ("memcached_reqrate" : String) ≠ "memcached_hitpct" := by decide
    simp [setsOf_append, setsOf_mainEvents_reqrate,
      setsOf_eq_nil_of_graphs hp "memcached_hitpct" hpall hne "incr",
      evReqrate, hg, hf, setsOf_ite]
  · refine ⟨_, hevs, ?_⟩
    apply combined_conclusion
    have hne : ("memcached_reqrate" : String) ≠ "memcached_hitpct" := by decide
    simp [setsOf_append, setsOf_mainEvents_reqrate,
      setsOf_eq_nil_of_graphs hp "memcached_hitpct" hpall hne "decr",
      evReqrate, hg, hf, setsOf_ite]
  · refine ⟨_, hevs, ?_⟩
    apply combined_conclusion
    have hne : ("memcached_statget" : String) ≠ "memcached_hitpct" := by decide
    simp [setsOf_append, setsOf_mainEvents_statget,
      setsOf_eq_nil_of_graphs hp "memcached_hitpct" hpall hne "total",
      evStatget, hg, hf, setsOf_ite]
  · refine ⟨_, hevs, ?_⟩
    apply combined_conclusion
    have hne : ("memcached_statset" : String) ≠ "memcached_hitpct" := by decide
    simp [setsOf_append, setsOf_mainEvents_statset,
      setsOf_eq_nil_of_graphs hp "memcached_hitpct" hpall hne "total",
      evStatset, hg, hf, setsOf_ite]
  · refine ⟨_, hevs, ?_⟩
    apply combined_conclusion
    have hne : ("memcached_statdel" : String) ≠ "memcached_hitpct" := by decide
    simp [setsOf_append, setsOf_mainEvents_statdel,
      setsOf_eq_nil_of_graphs hp "memcached_hitpct" hpall hne "total",
      evStatdel, hg, hf, setsOf_ite]
  · refine ⟨_, hevs, ?_⟩
    apply combined_conclusion
    have hne : ("memcached_statcas" : String) ≠ "memcached_hitpct" := by decide
    simp [setsOf_append, setsOf_mainEvents_statcas,
      setsOf_eq_nil_of_graphs hp "memcached_hitpct" hpall hne "total",
      evStatcas, hg, hf, setsOf_ite]
  · refine ⟨_, hevs, ?_⟩
    apply combined_conclusion
    have hne : ("memcached_statincrdecr" : String) ≠ "memcached_hitpct" := by decide
    simp [setsOf_append, setsOf_mainEvents_statincrdecr,
      setsOf_eq_nil_of_graphs hp "memcached_hitpct" hpall hne "total",
      evStatincrdecr, hg, hf, setsOf_ite]

/-- C2 witness: the spec example, `incr_hits` absent and `incr_misses = 5`
gives an incr rate field value of 5. -/
theorem claim_combined_sum_witness :
    ∃ evs, retrieveVals
        [("memcached_reqrate", ["set", "get", "del", "cas", "incr", "decr"])]
        (toDict [("cmd_set", 1), ("cmd_get", 2), ("incr_misses", 5)]) none = .ok evs ∧
      reported evs "memcached_reqrate" "incr" = some 5 := by
  obtain ⟨evs, hevs, habs, hsum⟩ := claim_combined_sum "memcached_reqrate" "incr"
    ["incr_hits", "incr_misses"] (by simp [combinedFieldTable])
    [("memcached_reqrate", ["set", "get", "del", "cas", "incr", "decr"])]
    [("cmd_set", 1), ("cmd_get", 2), ("incr_misses", 5)] none
    (toDict [("cmd_set", 1), ("cmd_get", 2), ("incr_misses", 5)] ++ [("set_hits", none)])
    (by decide) (by rfl) (by decide) (by decide)
  refine ⟨evs, hevs, ?_⟩
  rw [hsum ⟨"incr_misses", by simp, by decide⟩]
  simp [pyGet, lookupKV, toDict]

/-- C9 counterexample: a current snapshot that reports the derived name
`set_misses` without `total_items` makes the enrichment store `None` in
`set_hits`, and the hit-percentage loop then raises `TypeError` instead of
omitting the field. -/
theorem claim_compute_total_counterexample :
    retrieveVals [("memcached_hitpct", ["set"])] (toDict [("set_misses", 5)])
      (some (toDict [("set_hits", 1), ("set_misses", 1)])) = .error "TypeError" := by
  rfl

/-- C9 amended: the compute step never raises — every field access is
membership-guarded — for every current snapshot in which `set_misses` occurs
only together with `total_items` (in particular every snapshot a memcached
server can produce, since `set_misses` is this plugin's own derived name),
and every previous snapshot, present or absent. -/
theorem claim_compute_total_amended (schema : Schema) (cur : Stats)
    (prevO : Option Stats) (hwf : WfStats cur) :
    ∃ evs, retrieveVals schema (toDict cur) (prevO.map toDict) = .ok evs :=
  retrieveVals_total schema cur prevO hwf

/-- C9 amended witness. -/
theorem claim_compute_total_amended_witness :
    WfStats [("set_misses", 5), ("total_items", 7)] ∧
    ∃ evs, retrieveVals [("memcached_hitpct", ["set"])]
        (toDict [("set_misses", 5), ("total_items", 7)])
        (some (toDict [("set_hits", 1), ("set_misses", 1)])) = .ok evs :=
  ⟨by decide, claim_compute_total_amended [("memcached_hitpct", ["set"])]
    [("set_misses", 5), ("total_items", 7)] (some [("set_hits", 1), ("set_misses", 1)])
    (by decide)⟩

/-- C7 counterexample: the snapshot hand-off to the state store happens
before the field values are set, not after them: in a concrete invocation
the `save` event sits at index 1, before a `setGraphVal` event at index 2. -/
theorem claim_handoff_order_counterexample :
    ∃ evs, invocation (fun _ => true) none (toDict [("curr_connections", 3)]) =
        .ok evs ∧ ¬ handoffAfterFields evs := by
  refine ⟨_, rfl, ?_⟩
  intro hc
  have h2 := hc 1 2 [("curr_connections", some 3), ("set_hits", none)]
    "memcached_connections" "conn" (some ((3 : ℤ) : ℚ)) rfl rfl
  omega

/-- Evaluate one whole invocation from its parts. -/
theorem invocation_eq (enabled : String → Bool) (stored : Option PyDict)
    (fresh : PyDict) (evs : List Event)
    (h : retrieveVals (buildSchema enabled (stored.getD fresh)) fresh stored = .ok evs) :
    invocation enabled stored fresh = .ok (Event.restore stored :: evs) := by
  rcases stored with _ | p <;>
    simp only [Option.getD_none, Option.getD_some] at h <;>
    simp [invocation, initState, cycleStep, h]

/-- C7 amended: within one invocation the restore of the previous snapshot
comes first, the save of the (enriched) current snapshot second, and every
remaining event of the cycle is a `setGraphVal` — the hand-off precedes the
field computations instead of following them; the read of the previous
snapshot still happens before the write of the new one. -/
theorem claim_handoff_order_amended (enabled : String → Bool)
    (stored : Option Stats) (fresh : Stats) (hwf : WfStats fresh) :
    ∃ d rest, invocation enabled (stored.map toDict) (toDict fresh) =
        .ok (Event.restore (stored.map toDict) :: Event.save d :: rest) ∧
      ∀ e ∈ rest, ∃ g f v, e = Event.setVal g f v := by
  obtain ⟨d, hd, -⟩ := enrich_toDict fresh
  obtain ⟨hp, hh, hpall⟩ := hitpctEvents_total
    (buildSchema enabled ((stored.map toDict).getD (toDict fresh))) fresh d stored hwf hd
  have hrv := retrieveVals_eq
    (buildSchema enabled ((stored.map toDict).getD (toDict fresh)))
    (toDict fresh) (stored.map toDict) d hp hd hh
  refine ⟨d, _, invocation_eq enabled (stored.map toDict) (toDict fresh) _ hrv, ?_⟩
  intro e he
  rcases List.mem_append.mp he with he2 | he2
  · exact mainEvents_shape _ _ e he2
  · obtain ⟨f, v, rfl⟩ := hpall e he2
    exact ⟨_, _, _, rfl⟩

/-- C7 amended witness. -/
theorem claim_handoff_order_amended_witness :
    WfStats [("curr_connections", 3)] ∧
    ∃ d rest, invocation (fun _ => true) none (toDict [("curr_connections", 3)]) =
        .ok (Event.restore none :: Event.save d :: rest) ∧
      ∀ e ∈ rest, ∃ g f v, e = Event.setVal g f v :=
  ⟨by decide, claim_handoff_order_amended (fun _ => true) none
    [("curr_connections", 3)] (by decide)⟩

/-- C8 counterexample: on a current snapshot containing `cmd_set` and
`total_items`, the mapping handed to the state store has gained the keys
`set_hits` and `set_misses`, which the service never reported. -/
theorem claim_snapshot_immutable_counterexample :
    retrieveVals [] (toDict [("cmd_set", 100), ("total_items", 90)]) none =
      .ok [Event.save [("cmd_set", some 100), ("total_items", some 90),
        ("set_hits", some 90), ("set_misses", some 10)]] ∧
    dictMem [("cmd_set", (some 100 : PyVal)), ("total_items", some 90),
      ("set_hits", some 90), ("set_misses", some 10)] "set_misses" = true ∧
    dictMem (toDict [("cmd_set", 100), ("total_items", 90)]) "set_misses" = false := by
  refine ⟨?_, rfl, rfl⟩
  rfl

/-- C8 amended: the mapping handed to the state store is the captured
snapshot extended by exactly the enrichment: `set_hits` is set to the value
of `total_items` (or `None` when absent), `set_misses` is set to
`cmd_set - total_items` when both are present, and every other key keeps the
value obtained from the snapshot source. -/
theorem claim_snapshot_immutable_amended (schema : Schema) (cur : Stats)
    (prev : Option PyDict) (evs : List Event) (d : PyDict)
    (h : retrieveVals schema (toDict cur) prev = .ok evs)
    (hin : Event.save d ∈ evs) :
    (∀ k, k ≠ "set_hits" → k ≠ "set_misses" →
      lookupKV d k = lookupKV (toDict cur) k) ∧
    lookupKV d "set_hits" = some (lookupKV cur "total_items") ∧
    (∀ a b, lookupKV cur "cmd_set" = some a → lookupKV cur "total_items" = some b →
      lookupKV d "set_misses" = some (some (a - b))) ∧
    ((lookupKV cur "cmd_set" = none ∨ lookupKV cur "total_items" = none) →
      lookupKV d "set_misses" = lookupKV (toDict cur) "set_misses") := by
  obtain ⟨d0, hp, hd0, hh0, rfl⟩ := retrieveVals_inv _ _ _ _ h
  have hd_eq : d = d0 := by
    rcases List.mem_cons.mp hin with heq | hin2
    · cases heq
      rfl
    · exfalso
      rcases List.mem_append.mp hin2 with he | he
      · obtain ⟨g2, f2, v2, heq⟩ := mainEvents_shape _ _ _ he
        cases heq
      · obtain ⟨f2, v2, heq⟩ := hitpctEvents_ok_shape _ _ _ _ hh0 _ he
        cases heq
  subst hd_eq
  obtain ⟨d2, hd2, hother, hsh, hsm₁, hsm₂⟩ := enrich_toDict cur
  rw [hd0] at hd2
  cases hd2
  exact ⟨hother, hsh, hsm₁, hsm₂⟩

/-- C8 amended witness. -/
theorem claim_snapshot_immutable_amended_witness :
    ∃ evs d, retrieveVals [] (toDict [("cmd_set", 100), ("total_items", 90)]) none =
        .ok evs ∧ Event.save d ∈ evs ∧
      lookupKV d "set_hits" = some (lookupKV [("cmd_set", 100), ("total_items", 90)]
        "total_items") := by
  have h : retrieveVals [] (toDict [("cmd_set", 100), ("total_items", 90)]) none =
      .ok [Event.save [("cmd_set", some 100), ("total_items", some 90),
        ("set_hits", some 90), ("set_misses", some 10)]] := by rfl
  have hin : Event.save [("cmd_set", (some 100 : PyVal)), ("total_items", some 90),
      ("set_hits", some 90), ("set_misses", some 10)] ∈
      [Event.save [("cmd_set", (some 100 : PyVal)), ("total_items", some 90),
        ("set_hits", some 90), ("set_misses", some 10)]] := by simp
  obtain ⟨-, hsh, -, -⟩ := claim_snapshot_immutable_amended []
    [("cmd_set", 100), ("total_items", 90)] none _ _ h hin
  exact ⟨_, _, h, hin, hsh⟩

/-- C5 counterexample: building from `{cmd_set, cmd_get}` with every graph
enabled, the hitpct graph contains the fields `set` and `get` even though
their matched hit-counters `set_hits` and `get_hits` are absent from the
build snapshot — those two fields are not gated on their hit-counters. -/
theorem claim_schema_gate_counterexample :
    hasGraph (buildSchema (fun _ => true) (toDict [("cmd_set", 1), ("cmd_get", 1)]))
      "memcached_hitpct" = true ∧
    graphHasField (buildSchema (fun _ => true) (toDict [("cmd_set", 1), ("cmd_get", 1)]))
      "memcached_hitpct" "set" = true ∧
    lookupKV [("cmd_set", (1 : ℤ)), ("cmd_get", 1)] "set_hits" = none ∧
    graphHasField (buildSchema (fun _ => true) (toDict [("cmd_set", 1), ("cmd_get", 1)]))
      "memcached_hitpct" "get" = true ∧
    lookupKV [("cmd_set", (1 : ℤ)), ("cmd_get", 1)] "get_hits" = none ∧
    ("set", "set_hits") ∈ hitpctHitCounters ∧
    ("get", "get_hits") ∈ hitpctHitCounters := by
  refine ⟨rfl, rfl, rfl, rfl, rfl, by decide, by decide⟩

/-- C5 amended: a catalog graph is included in the built schema iff it is
enabled and all of its graph-level required counters are present; within an
included hitpct graph, `set` is unconditional, `get` is gated on `cmd_get`,
and `del`, `cas`, `incr`, `decr` are gated on the presence of
`delete_hits`, `cas_hits`, `incr_hits`, `decr_hits` respectively. -/
theorem claim_schema_inclusion_amended :
    (∀ (gname : String) (req : List String), (gname, req) ∈ catalogRequires →
      ∀ (enabled : String → Bool) (stats : PyDict),
        hasGraph (buildSchema enabled stats) gname = true ↔
          (enabled gname = true ∧ ∀ k ∈ req, dictMem stats k = true)) ∧
    (∀ (enabled : String → Bool) (stats : PyDict),
      hasGraph (buildSchema enabled stats) "memcached_hitpct" = true →
      graphHasField (buildSchema enabled stats) "memcached_hitpct" "set" = true ∧
      (graphHasField (buildSchema enabled stats) "memcached_hitpct" "get" = true ↔
        dictMem stats "cmd_get" = true) ∧
      (graphHasField (buildSchema enabled stats) "memcached_hitpct" "del" = true ↔
        dictMem stats "delete_hits" = true) ∧
      (graphHasField (buildSchema enabled stats) "memcached_hitpct" "cas" = true ↔
        dictMem stats "cas_hits" = true) ∧
      (graphHasField (buildSchema enabled stats) "memcached_hitpct" "incr" = true ↔
        dictMem stats "incr_hits" = true) ∧
      (graphHasField (buildSchema enabled stats) "memcached_hitpct" "decr" = true ↔
        dictMem stats "decr_hits" = true)) :=
  ⟨fun gname req hmem enabled stats => buildSchema_inclusion gname req hmem enabled stats,
   fun enabled stats hg => buildSchema_hitpct_fields enabled stats hg⟩

/-- C5 amended witness: a snapshot missing `curr_connections` never yields a
connections graph, and one containing it does when the graph is enabled. -/
theorem claim_schema_inclusion_amended_witness :
    hasGraph (buildSchema (fun _ => true) (toDict [("curr_connections", 2)]))
      "memcached_connections" = true ∧
    ¬ hasGraph (buildSchema (fun _ => true) (toDict [("bytes", 2)]))
      "memcached_connections" = true := by
  constructor
  · exact (claim_schema_inclusion_amended.1 "memcached_connections"
      ["curr_connections"] (by simp [catalogRequires]) (fun _ => true)
      (toDict [("curr_connections", 2)])).mpr ⟨rfl, by decide⟩
  · intro hc
    have h2 := (claim_schema_inclusion_amended.1 "memcached_connections"
      ["curr_connections"] (by simp [catalogRequires]) (fun _ => true)
      (toDict [("bytes", 2)])).mp hc
    have h3 := h2.2 "curr_connections" (by simp)
    exact absurd h3 (by decide)

/-- C6: Schema-freeze invariant: the schema of the process state is the one
built at startup and is unchanged by any number of later cycles; in
particular a state built from `{cmd_get}` has no reqrate or hitpct graph,
and a later cycle whose snapshot gains `cmd_set` does not add them. -/
theorem claim_schema_frozen :
    (∀ (enabled : String → Bool) (stored : Option PyDict) (fresh : PyDict)
        (cycles : List PyDict),
      (runCycles (initState enabled stored fresh) cycles).schema =
        buildSchema enabled (stored.getD fresh)) ∧
    (hasGraph (initState (fun _ => true) none (toDict [("cmd_get", 1)])).schema
      "memcached_reqrate" = false) ∧
    (hasGraph (initState (fun _ => true) none (toDict [("cmd_get", 1)])).schema
      "memcached_hitpct" = false) ∧
    (∀ fields, lookupKV (runCycles (initState (fun _ => true) none
        (toDict [("cmd_get", 1)])) [toDict [("cmd_set", 1), ("cmd_get", 1)]]).schema
        "memcached_reqrate" ≠ some fields) := by
  refine ⟨?_, rfl, rfl, ?_⟩
  · intro enabled stored fresh cycles
    rw [runCycles_schema]
    rfl
  · intro fields hcontra
    rw [runCycles_schema] at hcontra
    have hnone : lookupKV (initState (fun _ => true) none
        (toDict [("cmd_get", 1)])).schema "memcached_reqrate" = none := rfl
    rw [hnone] at hcontra
    cases hcontra

/-- C10: Idempotence of compute: re-running the cycle on the same
(current, previous) pair produces the identical event trace both times.
The cycle does mutate hidden state — when `self._stats` is cached, the
enrichment of lines 314-316 rewrites that dict in place — but the mutation
is exactly the snapshot enrichment, it leaves the schema and the previous
snapshot untouched, and re-enriching an enriched dict is a no-op
(`enrich_idem`), so the second run's output is unchanged. -/
theorem claim_compute_idempotent (st : PState) (fresh : PyDict) :
    (cycleStep ((cycleStep st fresh).2) fresh).1 = (cycleStep st fresh).1 ∧
    (cycleStep st fresh).2.schema = st.schema ∧
    (cycleStep st fresh).2.prev = st.prev ∧
    (cycleStep st fresh).2.statsCache = st.statsCache.map enrichResult := by
  refine ⟨?_, rfl, rfl, rfl⟩
  cases hc : st.statsCache with
  | none => simp [cycleStep, hc]
  | some c =>
    simp only [cycleStep, hc, Option.map_some', Option.getD_some]
    cases he : enrich c with
    | ok d =>
      have her : enrichResult c = d := by
        simp [enrichResult, he]
      rw [her]
      unfold retrieveVals
      rw [he, enrich_idem c d he]
    | error e =>
      have her : enrichResult c = dictSet c "set_hits" (pyGet c "total_items") := by
        simp [enrichResult, he]
      rw [her]
      unfold retrieveVals
      rw [he, enrich_err_idem c e he]

/-- C3 witness: enriching `{cmd_set: 100, total_items: 90}` materializes
`set_misses = 10`. -/
theorem claim_set_misses_enrichment_witness :
    lookupKV [("cmd_set", (some 100 : PyVal)), ("total_items", some 90),
      ("set_hits", some 90), ("set_misses", some 10)] "set_misses" =
      some (some (100 - 90)) :=
  claim_set_misses_enrichment.1 [("cmd_set", 100), ("total_items", 90)] 100 90
    [("cmd_set", some 100), ("total_items", some 90), ("set_hits", some 90),
     ("set_misses", some 10)] rfl rfl rfl

/-- C6 witness: the concrete later cycle gaining `cmd_set` leaves the
schema equal to the build-time one, with no reqrate `set` field. -/
theorem claim_schema_frozen_witness :
    (runCycles (initState (fun _ => true) none (toDict [("cmd_get", 1)]))
        [toDict [("cmd_set", 1), ("cmd_get", 1)]]).schema =
      buildSchema (fun _ => true) (toDict [("cmd_get", 1)]) ∧
    lookupKV (runCycles (initState (fun _ => true) none (toDict [("cmd_get", 1)]))
        [toDict [("cmd_set", 1), ("cmd_get", 1)]]).schema "memcached_reqrate" ≠
      some ["set"] :=
  ⟨claim_schema_frozen.1 (fun _ => true) none (toDict [("cmd_get", 1)])
      [toDict [("cmd_set", 1), ("cmd_get", 1)]],
   claim_schema_frozen.2.2.2 ["set"]⟩

end Memcached
